import Mathlib

/-!
NodePulse agent: connection manager and backoff controller

A shallow embedding of `agent/internal/websocket/reconnect.go`,
`agent/internal/websocket/client.go` and the command handler closure of
`agent/cmd/nodepulse-agent/main.go`, followed by theorems about them.

Conventions of the embedding:
* `time.Duration` and `int` are 64-bit signed integers: they are `Int` here and every
  arithmetic result goes through `wrapInt64`.
* A method that holds `c.mu` for its whole body is one atomic function on `Sys`.
* What a method does to the outside world (dialling, writing to a transport, closing a
  transport, closing the cancellation channel, starting a goroutine, waiting on a timer)
  is appended to `Sys.trace`. Calls to the logger are not recorded.
* What the outside world answers (whether a dial or a write succeeds, what a read returns)
  is an explicit argument of the method.
-/

namespace NodePulse

/-! ## reconnect.go -/

/-- Wrap-around of a 64-bit signed integer in two-complement representation. -/
def wrapInt64 (x : Int) : Int :=
  (x + 9223372036854775808) % 18446744073709551616 - 9223372036854775808

/-- One second as a `time.Duration` (nanoseconds). -/
def Second : Int := 1000000000

/-- The minimum reconnection delay, `1 * time.Second`. -/
def MinDelay : Int := 1 * Second

/-- The maximum reconnection delay, `30 * time.Second`. -/
def MaxDelay : Int := 30 * Second

/-- The factor of the exponential backoff. -/
def Multiplier : Int := 2

/-- The backoff state (the mutex of the Go struct is not a field here). -/
structure Reconnect where
  delay : Int
  attempt : Int
  deriving DecidableEq, Repr

/-- The backoff state of a new handler: `delay: MinDelay`, `attempt` zero. -/
def NewReconnect : Reconnect :=
  { delay := MinDelay, attempt := 0 }

/-- The delay to wait now, and the state after the call: the attempt counter is
incremented and the stored delay is multiplied and clamped to `MaxDelay`. -/
def Reconnect.NextDelay (r : Reconnect) : Int × Reconnect :=
  let delay := r.delay
  let attempt := wrapInt64 (r.attempt + 1)
  let next := wrapInt64 (r.delay * Multiplier)
  let next := if next > MaxDelay then MaxDelay else next
  (delay, { delay := next, attempt := attempt })

/-- Back to the state of a new handler. -/
def Reconnect.Reset (_r : Reconnect) : Reconnect :=
  { delay := MinDelay, attempt := 0 }

/-- The current attempt number. -/
def Reconnect.Attempt (r : Reconnect) : Int :=
  r.attempt

/-- The backoff state after `k` further calls of `NextDelay`. -/
def Reconnect.after (r : Reconnect) : Nat → Reconnect
  | 0 => r
  | k + 1 => (r.after k).NextDelay.2

/-- The delay returned by call number `k` (counting from 0) of `NextDelay` on `r`. -/
def Reconnect.nthDelay (r : Reconnect) (k : Nat) : Int :=
  (r.after k).NextDelay.1

/-- The delays returned by the first `n` calls of `NextDelay` on `r`, in order. -/
def Reconnect.delays (r : Reconnect) : Nat → List Int
  | 0 => []
  | n + 1 => r.NextDelay.1 :: r.NextDelay.2.delays n

/-! ## client.go: messages -/

def TypeMetrics : String := "metrics"
def TypeHeartbeat : String := "heartbeat"
def TypeInfo : String := "info"
def TypeResponse : String := "response"
def TypeCommand : String := "command"
def TypeWelcome : String := "welcome"

/-- A JSON value. A number keeps its literal text. A value of Go type `interface{}` that
the client only carries (a metrics snapshot, a response payload) is the JSON value it
marshals to, `null` for a nil interface. -/
inductive JSON where
  | null
  | bool (b : Bool)
  | num (lit : String)
  | str (s : String)
  | arr (xs : List JSON)
  | obj (kvs : List (String × JSON))

/-- A Go `error`: `none` is `nil`, `some e` an error with text `e`. -/
abbrev GoError := Option String

/-- A Go `map[string]interface{}`: `none` is the nil map, and in `some kvs` a later entry
for a key stands for an assignment that overwrote the earlier one. -/
abbrev GoMap := Option (List (String × JSON))

/-- The Go expression `m[k]` with its presence flag: the last entry for `k`. -/
def GoMap.index (m : GoMap) (k : String) : Option JSON :=
  match m with
  | none => none
  | some kvs => (kvs.reverse.find? (fun kv => kv.1 == k)).map (fun kv => kv.2)

/-- Sent after connecting. -/
structure InfoMessage where
  Type_ : String
  Version : String
  Arch : String

/-- Wraps metrics data. -/
structure MetricsMessage where
  Type_ : String
  Data : JSON

/-- Received from the server. -/
structure CommandMessage where
  Type_ : String
  ID : String
  Command : String
  Args : GoMap

/-- Sent back for commands. -/
structure ResponseMessage where
  Type_ : String
  ID : String
  Success : Bool
  Data : JSON
  Error : String

/-- The values the client hands to `Send`. -/
inductive Value where
  | info (m : InfoMessage)
  | metrics (m : MetricsMessage)
  | response (m : ResponseMessage)
  | other (j : JSON)

/-- The callback type `func(cmd *CommandMessage) *ResponseMessage`; `none` is a nil result. -/
abbrev Handler := CommandMessage → Option ResponseMessage

/-! ## client.go: what `encoding/json` does with an inbound frame -/

/-- The bytes of an inbound frame as `json.Unmarshal` sees them: `invalid` when they are
not a JSON text (or hold a number no `float64` can take, on which decoding into
`interface{}` fails as well), otherwise the JSON value they denote. -/
inductive Frame where
  | invalid
  | value (v : JSON)

/-- The call `json.Unmarshal(data, &msg)` with `msg` of type `map[string]interface{}`:
an object fills the map, `null` leaves it nil, every other value is a type error. -/
def unmarshalMap : Frame → Except String GoMap
  | .invalid => .error "invalid character"
  | .value (.obj kvs) => .ok (some kvs)
  | .value .null => .ok none
  | .value _ => .error "json: cannot unmarshal into Go value of type map"

/-- Case folding of one character of an object key, as far as it can reach an ASCII
letter: upper case to lower case, and the long s and the Kelvin sign. -/
def foldRune (c : Char) : Char :=
  if c = 'ſ' then 's'
  else if c = 'K' then 'k'
  else c.toLower

/-- The fields of `CommandMessage`. -/
inductive CommandField where
  | type_ | id | command | args
  deriving DecidableEq, Repr

/-- The field of `CommandMessage` an object key is decoded into: the one whose JSON name
the key equals, letter case ignored. The four names stay distinct under folding, so an
exact match and a folded match never disagree. -/
def commandFieldOf (key : String) : Option CommandField :=
  let k := key.data.map foldRune
  if k = "type".data then some .type_
  else if k = "id".data then some .id
  else if k = "command".data then some .command
  else if k = "args".data then some .args
  else none

/-- Decoding a value into a Go `string` field: a JSON string is stored, `null` leaves the
field as it is, every other value is a type error (`none`). -/
def decodeString (old : String) : JSON → Option String
  | .str s => some s
  | .null => some old
  | _ => none

/-- Decoding a value into a field of type `map[string]interface{}`: an object is written
entry by entry into the map (created when nil), `null` makes the map nil, every other
value is a type error (`none`). -/
def decodeArgs (old : GoMap) : JSON → Option GoMap
  | .obj kvs => some (some (old.getD [] ++ kvs))
  | .null => some none
  | _ => none

/-- One key of the object decoded into a `CommandMessage`; the flag records a type error
met so far (decoding goes on after one, the error is reported at the end). -/
def decodeCommandField (st : CommandMessage × Bool) (kv : String × JSON) : CommandMessage × Bool :=
  let cmd := st.1
  match commandFieldOf kv.1 with
  | none => st
  | some .type_ =>
    match decodeString cmd.Type_ kv.2 with
    | some s => ({ cmd with Type_ := s }, st.2)
    | none => (cmd, true)
  | some .id =>
    match decodeString cmd.ID kv.2 with
    | some s => ({ cmd with ID := s }, st.2)
    | none => (cmd, true)
  | some .command =>
    match decodeString cmd.Command kv.2 with
    | some s => ({ cmd with Command := s }, st.2)
    | none => (cmd, true)
  | some .args =>
    match decodeArgs cmd.Args kv.2 with
    | some m => ({ cmd with Args := m }, st.2)
    | none => (cmd, true)

/-- The zero value of `CommandMessage` (`var cmd CommandMessage`). -/
def CommandMessage.zero : CommandMessage :=
  { Type_ := "", ID := "", Command := "", Args := none }

/-- The call `json.Unmarshal(data, &cmd)` with `cmd` a zero `CommandMessage`. -/
def unmarshalCommand : Frame → Except String CommandMessage
  | .invalid => .error "invalid character"
  | .value (.obj kvs) =>
    let r := kvs.foldl decodeCommandField (CommandMessage.zero, false)
    if r.2 then .error "json: cannot unmarshal into Go struct field of CommandMessage" else .ok r.1
  | .value .null => .ok CommandMessage.zero
  | .value _ => .error "json: cannot unmarshal into Go value of type websocket.CommandMessage"

/-! ## client.go: the client and the outside world -/

/-- The identity of a dialled transport (a `*websocket.Conn`): the number of transports
dialled before it. -/
abbrev ConnId := Nat

/-- What the client does to the outside world. -/
inductive Event where
  /-- The call `websocket.DefaultDialer.Dial(c.serverURL, header)` with the API key in the
  header; `result` is the transport obtained, `none` when the dial failed. -/
  | dial (serverURL apiKey : String) (result : Option ConnId)
  /-- The call `conn.WriteJSON(v)` and the error it returned. -/
  | write (conn : ConnId) (v : Value) (err : GoError)
  /-- The call `conn.Close()`. -/
  | closeConn (conn : ConnId)
  /-- The statement `close(c.closeCh)`. -/
  | closeChan
  /-- The statement `go c.readLoop()`. -/
  | goReadLoop
  /-- The statement `go c.reconnectLoop()`. -/
  | goReconnectLoop
  /-- Waiting on `time.After(delay)`. -/
  | wait (delay : Int)

/-- The fields of the Go struct `Client`. `closeCh` is true once the channel is closed;
the mutex is not a field: a method that holds it is one function. -/
structure Client where
  serverURL : String
  apiKey : String
  version : String
  arch : String
  conn : Option ConnId
  closed : Bool
  closeCh : Bool
  reconnect : Reconnect
  onCommand : Option Handler

/-- A client together with the outside world: what it has done so far, how many transports
were dialled, and whether a goroutine has panicked. -/
structure Sys extends Client where
  trace : List Event
  dialed : Nat
  panicked : Bool

/-- A new client: no transport, not closed, an open cancellation channel, a new backoff
state, no command handler. -/
def NewClient (serverURL apiKey version arch : String) : Sys :=
  { serverURL := serverURL
    apiKey := apiKey
    version := version
    arch := arch
    conn := none
    closed := false
    closeCh := false
    reconnect := NewReconnect
    onCommand := none
    trace := []
    dialed := 0
    panicked := false }

/-- Sets the callback for handling commands (a nil function is `none`). -/
def Client.SetCommandHandler (handler : Option Handler) (s : Sys) : Sys :=
  { s with onCommand := handler }

/-- Writes `v` on the transport when there is one; `w` is what `WriteJSON` answers. -/
def Client.sendJSON (v : Value) (w : GoError) (s : Sys) : GoError × Sys :=
  match s.conn with
  | none => (none, s)
  | some conn => (w, { s with trace := s.trace ++ [Event.write conn v w] })

/-- Establishes the connection; `dial` is what the dial answers (`none`: a transport) and
`infoWrite` what the write of the info message answers. -/
def Client.Connect (dial : GoError) (infoWrite : GoError) (s : Sys) : GoError × Sys :=
  if s.closed then (none, s)
  else
    match dial with
    | some err =>
      (some err, { s with trace := s.trace ++ [Event.dial s.serverURL s.apiKey none] })
    | none =>
      let conn : ConnId := s.dialed
      let s1 : Sys :=
        { s with
            trace := s.trace ++ [Event.dial s.serverURL s.apiKey (some conn)]
            dialed := s.dialed + 1
            conn := some conn
            reconnect := s.reconnect.Reset }
      let info : InfoMessage := { Type_ := TypeInfo, Version := s1.version, Arch := s1.arch }
      let s2 := (Client.sendJSON (Value.info info) infoWrite s1).2
      (none, { s2 with trace := s2.trace ++ [Event.goReadLoop] })

/-- Sends a message to the server; `w` is what the write answers. -/
def Client.Send (v : Value) (w : GoError) (s : Sys) : GoError × Sys :=
  match s.conn with
  | none => (none, s)
  | some _ => Client.sendJSON v w s

/-- Sends metrics data to the server. -/
def Client.SendMetrics (data : JSON) (w : GoError) (s : Sys) : GoError × Sys :=
  let msg : MetricsMessage := { Type_ := TypeMetrics, Data := data }
  Client.Send (Value.metrics msg) w s

/-- The statement `msgType, _ := msg["type"].(string)`: the string under the key `type`,
the empty string when the key is absent or holds no string. -/
def msgTypeOf (msg : GoMap) : String :=
  match msg.index "type" with
  | some (.str t) => t
  | _ => ""

/-- Processes one incoming frame; `w` is what the write of a response answers. -/
def Client.handleMessage (data : Frame) (w : GoError) (s : Sys) : Sys :=
  match unmarshalMap data with
  | .error _ => s
  | .ok msg =>
    let msgType := msgTypeOf msg
    if msgType = TypeWelcome then s
    else if msgType = TypeCommand then
      match s.onCommand with
      | none => s
      | some onCommand =>
        match unmarshalCommand data with
        | .error _ => s
        | .ok cmd =>
          match onCommand cmd with
          | none => s
          | some resp => (Client.Send (Value.response resp) w s).2
    else s

/-- Handles connection loss: closes and clears the transport when there is one, then
starts the reconnection loop. -/
def Client.handleDisconnect (s : Sys) : Sys :=
  let s1 : Sys :=
    match s.conn with
    | some conn => { s with trace := s.trace ++ [Event.closeConn conn], conn := none }
    | none => s
  { s1 with trace := s1.trace ++ [Event.goReconnectLoop] }

/-- True when the client has a transport. -/
def Client.IsConnected (s : Sys) : Bool :=
  s.conn.isSome

/-- Closes the client. Closing an already closed channel panics in Go: the flag
`panicked` is set and the rest of the body is not run. -/
def Client.Close (s : Sys) : Sys :=
  if s.closed then s
  else
    let s1 : Sys := { s with closed := true }
    if s1.closeCh then { s1 with panicked := true }
    else
      let s2 : Sys := { s1 with closeCh := true, trace := s1.trace ++ [Event.closeChan] }
      match s2.conn with
      | some conn => { s2 with trace := s2.trace ++ [Event.closeConn conn], conn := none }
      | none => s2

/-- How a run of a loop over a finite script of answers of the outside world ended:
`exited` when the loop returned, `running` when the script ran out first. -/
inductive LoopStatus where
  | exited
  | running
  deriving DecidableEq, Repr

/-- What `conn.ReadMessage()` returns to the receive loop: a frame (with the answer `w`
that a write of a response to it meets), or an error. -/
inductive ReadResult where
  | message (data : Frame) (w : GoError)
  | failed (err : String)

/-- The receive loop run on its own over the successive results of `ReadMessage`. -/
def Client.readLoop : List ReadResult → Sys → Sys × LoopStatus
  | [], s =>
    if s.closeCh then (s, .exited)
    else
      match s.conn with
      | none => (s, .exited)
      | some _ => (s, .running)
  | r :: rest, s =>
    if s.closeCh then (s, .exited)
    else
      match s.conn with
      | none => (s, .exited)
      | some _ =>
        match r with
        | .failed _ =>
          if !s.closed then (Client.handleDisconnect s, .exited) else (s, .exited)
        | .message data w => Client.readLoop rest (Client.handleMessage data w s)

/-- The first half of the body of the reconnection loop: the next delay is taken from the
backoff state and the loop waits on the timer. -/
def Client.reconnectDelay (s : Sys) : Int × Sys :=
  let d := s.reconnect.NextDelay
  (d.1, { s with reconnect := d.2, trace := s.trace ++ [Event.wait d.1] })

/-- The reconnection loop run on its own; each entry of the script is what one `Connect`
meets: the answer of the dial and the answer of the write of the info message. Nothing
else runs meanwhile, so the channel is still open when the timer fires. -/
def Client.reconnectLoop : List (GoError × GoError) → Sys → Sys × LoopStatus
  | [], s => if s.closeCh then (s, .exited) else (s, .running)
  | a :: rest, s =>
    if s.closeCh then (s, .exited)
    else
      let s1 := (Client.reconnectDelay s).2
      if s1.closeCh then (s1, .exited)
      else
        let r := Client.Connect a.1 a.2 s1
        match r.1 with
        | some _ => Client.reconnectLoop rest r.2
        | none => (r.2, .exited)

/-- The answers the reconnection loop meets when three dials fail and the fourth gives a
transport on which the write of the info message answers `w`. -/
def threeFailuresThenSuccess (e1 e2 e3 : String) (w : GoError) : List (GoError × GoError) :=
  [(some e1, none), (some e2, none), (some e3, none), (none, w)]

/-! ## main.go: the command handler -/

/-- The closure that `main` registers with `SetCommandHandler`; `metrics` is what
`coll.Collect()` returns when it is called. -/
def mainHandler (metrics : JSON) (cmd : CommandMessage) : Option ResponseMessage :=
  if cmd.Command = "get_stats" then
    some { Type_ := TypeResponse, ID := cmd.ID, Success := true, Data := metrics, Error := "" }
  else
    some { Type_ := TypeResponse, ID := cmd.ID, Success := false, Data := JSON.null,
           Error := "unknown command: " ++ cmd.Command }

/-! ## Sequences of calls -/

/-- One call on the client, with the answers of the outside world it meets. -/
inductive Op where
  | connect (dial : GoError) (infoWrite : GoError)
  | send (v : Value) (w : GoError)
  | sendMetrics (data : JSON) (w : GoError)
  | isConnected
  | close
  | setCommandHandler (handler : Option Handler)
  | handleMessage (data : Frame) (w : GoError)
  | handleDisconnect
  | reconnectDelay

/-- The state after one call. -/
def Sys.step (s : Sys) : Op → Sys
  | .connect dial infoWrite => (Client.Connect dial infoWrite s).2
  | .send v w => (Client.Send v w s).2
  | .sendMetrics data w => (Client.SendMetrics data w s).2
  | .isConnected => s
  | .close => Client.Close s
  | .setCommandHandler handler => Client.SetCommandHandler handler s
  | .handleMessage data w => Client.handleMessage data w s
  | .handleDisconnect => Client.handleDisconnect s
  | .reconnectDelay => (Client.reconnectDelay s).2

/-- The state after a sequence of calls. -/
def Sys.run (s : Sys) (ops : List Op) : Sys :=
  ops.foldl Sys.step s

/-- True for the event that closes transport `c`. -/
def Event.isCloseConn (c : ConnId) : Event → Bool
  | .closeConn d => d == c
  | _ => false

/-- True for the event that closes the cancellation channel. -/
def Event.isCloseChan : Event → Bool
  | .closeChan => true
  | _ => false

/-- How many times transport `c` was closed in a trace. -/
def connCloses (c : ConnId) (t : List Event) : Nat :=
  t.countP (Event.isCloseConn c)

/-- How many times the cancellation channel was closed in a trace. -/
def chanCloses (t : List Event) : Nat :=
  t.countP Event.isCloseChan

/-- True for the event that starts a reconnection loop. -/
def Event.isGoReconnectLoop : Event → Bool
  | .goReconnectLoop => true
  | _ => false

/-- How many reconnection loops were started in a trace. -/
def reconnectLoops (t : List Event) : Nat :=
  t.countP Event.isGoReconnectLoop

/-- `Close` called `n` times in a row. -/
def Client.closeTimes : Nat → Sys → Sys
  | 0, s => s
  | n + 1, s => Client.closeTimes n (Client.Close s)

/-- What every state of a client satisfies (see `Reachable.inv`): the channel is closed
exactly when the flag is set, and was closed that many times; a closed client has no
transport; nothing has panicked; the transport held was dialled and not closed yet; no
transport was closed twice, none before it was dialled. -/
structure Sys.Inv (s : Sys) : Prop where
  chan : s.closeCh = s.closed
  closedConn : s.closed = true → s.conn = none
  noPanic : s.panicked = false
  chanOnce : chanCloses s.trace = if s.closed then 1 else 0
  connFresh : ∀ c, s.conn = some c → c < s.dialed ∧ connCloses c s.trace = 0
  closesOnce : ∀ c, connCloses c s.trace ≤ 1
  closesDialed : ∀ c, s.dialed ≤ c → connCloses c s.trace = 0

/-! ## Example inputs -/

/-- The frame `{"type":"command","id":"42","command":"get_stats","args":{}}`. -/
def getStatsFrame : Frame :=
  Frame.value (JSON.obj [("type", JSON.str "command"), ("id", JSON.str "42"),
    ("command", JSON.str "get_stats"), ("args", JSON.obj [])])

/-- The frame `{"type":"command","id":42,"command":"get_stats","args":{}}`, whose id is a
number. -/
def numericIdFrame : Frame :=
  Frame.value (JSON.obj [("type", JSON.str "command"), ("id", JSON.num "42"),
    ("command", JSON.str "get_stats"), ("args", JSON.obj [])])

/-- The frame `{"type":"welcome"}`. -/
def welcomeFrame : Frame :=
  Frame.value (JSON.obj [("type", JSON.str "welcome")])

/-- A handler that answers no command. -/
def silentHandler : Handler :=
  fun _ => none

/-- A client wired as `main` wires it (the handler of `main` over the snapshot `metrics`)
after a first `Connect` whose dial and info write succeeded. -/
def connectedAgent (metrics : JSON) : Sys :=
  (NewClient "ws://host/agent" "key" "dev" "amd64").run
    [Op.setCommandHandler (some (mainHandler metrics)), Op.connect none none]

/-- The states a client can be in: those a sequence of calls leads to from a new client. -/
def Reachable (s : Sys) : Prop :=
  ∃ (serverURL apiKey version arch : String) (ops : List Op),
    s = (NewClient serverURL apiKey version arch).run ops

/-! ## Writes and receive loops in a trace -/

/-- The values written on transport `c` in a trace, in order (a write whose call returned
an error included). -/
def writesOn (c : ConnId) : List Event → List Value
  | [] => []
  | Event.write d v _ :: rest => if d = c then v :: writesOn c rest else writesOn c rest
  | _ :: rest => writesOn c rest

/-- True for the event that starts a receive loop. -/
def Event.isGoReadLoop : Event → Bool
  | .goReadLoop => true
  | _ => false

/-- How many receive loops were started in a trace. -/
def readLoops (t : List Event) : Nat :=
  t.countP Event.isGoReadLoop

/-- No write was made on a transport that is not dialled yet. -/
def Sys.WritesDialed (s : Sys) : Prop :=
  ∀ c, s.dialed ≤ c → writesOn c s.trace = []

/-- How a later state `s2` relates to an earlier state `s` of the same client: the trace
has only grown, by events that write on the transport held in `s` or on one dialled since;
the endpoint, the key, the version and the architecture are the same. -/
def Sys.Grows (s s2 : Sys) : Prop :=
  ∃ t, s2.trace = s.trace ++ t
    ∧ (∀ c, s2.dialed ≤ c → s.conn ≠ some c → writesOn c t = [])
    ∧ s2.serverURL = s.serverURL
    ∧ s2.apiKey = s.apiKey
    ∧ s2.version = s.version
    ∧ s2.arch = s.arch
    ∧ s.dialed ≤ s2.dialed

/-! ## The loops among other goroutines -/

/-- The receive loop run while other goroutines call the client: each entry of the script
holds the calls `during` that others make while the loop is blocked in `ReadMessage`
(after it has fetched `c.conn`), and what `ReadMessage` then returns. -/
def Client.readLoopAmid : List (List Op × ReadResult) → Sys → Sys × LoopStatus
  | [], s =>
    if s.closeCh then (s, .exited)
    else
      match s.conn with
      | none => (s, .exited)
      | some _ => (s, .running)
  | a :: rest, s =>
    if s.closeCh then (s, .exited)
    else
      match s.conn with
      | none => (s, .exited)
      | some _ =>
        let s1 := s.run a.1
        match a.2 with
        | .failed _ =>
          if !s1.closed then (Client.handleDisconnect s1, .exited) else (s1, .exited)
        | .message data w => Client.readLoopAmid rest (Client.handleMessage data w s1)

/-- The reconnection loop run while other goroutines call the client: each entry of the
script holds the calls `during` that others make while the loop waits on the timer, then
the answer of the dial and of the write of the info message. When the channel was closed
during the wait, the `select` takes that case and the loop returns. -/
def Client.reconnectLoopAmid : List (List Op × GoError × GoError) → Sys → Sys × LoopStatus
  | [], s => if s.closeCh then (s, .exited) else (s, .running)
  | a :: rest, s =>
    if s.closeCh then (s, .exited)
    else
      let s1 := ((Client.reconnectDelay s).2).run a.1
      if s1.closeCh then (s1, .exited)
      else
        let r := Client.Connect a.2.1 a.2.2 s1
        match r.1 with
        | some _ => Client.reconnectLoopAmid rest r.2
        | none => (r.2, .exited)

/-! ## Live transports -/

/-- The transports that were dialled and not closed since. -/
def liveTransports (s : Sys) : List ConnId :=
  (List.range s.dialed).filter (fun c => connCloses c s.trace == 0)

/-- A sequence of calls in which every `Connect` whose dial succeeds is made while the
client holds no transport (as the calls of `main` and of the reconnection loop are). -/
def Sys.ConnectsWhenFree : Sys → List Op → Prop
  | _, [] => True
  | s, op :: ops =>
    (match op with
     | .connect none _ => s.conn = none
     | _ => True)
    ∧ Sys.ConnectsWhenFree (s.step op) ops

/-- Every transport that is dialled and not closed is the one the client holds. -/
def Sys.LiveIsHeld (s : Sys) : Prop :=
  ∀ c, c < s.dialed → connCloses c s.trace = 0 → s.conn = some c

/-- The client after two calls of `Connect` whose dials both succeed. -/
def connectedTwice : Sys :=
  (NewClient "ws://host/agent" "key" "dev" "amd64").run
    [Op.connect none none, Op.connect none none]

/-! ## The two mutexes

Which mutex each method locks and unlocks, in the order of its statements. A deferred
unlock is the last event of the method. A goroutine started by `go` has its own sequence:
it is not part of the sequence of the method that starts it. The handler is a function of
the command alone, it locks neither mutex. -/

/-- The mutex `c.mu` of the client and the mutex `r.mu` of the backoff state. -/
inductive Mutex where
  | client
  | backoff
  deriving DecidableEq, Repr

/-- A call of `Lock` or of `Unlock` on one of the two mutexes. -/
inductive LockEvent where
  | lock (m : Mutex)
  | unlock (m : Mutex)
  deriving DecidableEq, Repr

namespace Locks

/-- `NextDelay` holds `r.mu` for its whole body. -/
def NextDelay : List LockEvent :=
  [.lock .backoff, .unlock .backoff]

/-- `Reset` holds `r.mu` for its whole body. -/
def Reset : List LockEvent :=
  [.lock .backoff, .unlock .backoff]

/-- `Attempt` holds `r.mu` for its whole body. -/
def Attempt : List LockEvent :=
  [.lock .backoff, .unlock .backoff]

/-- `sendJSON` locks nothing (it is called with `c.mu` held). -/
def sendJSON : List LockEvent :=
  []

/-- `Connect` holds `c.mu` for its whole body; after a successful dial it calls `Reset`
and `sendJSON` inside. -/
def Connect (dial : GoError) (s : Sys) : List LockEvent :=
  [.lock .client]
    ++ (if s.closed then []
        else
          match dial with
          | some _ => []
          | none => Reset ++ sendJSON)
    ++ [.unlock .client]

/-- `Send` holds `c.mu` for its whole body. -/
def Send : List LockEvent :=
  [.lock .client] ++ sendJSON ++ [.unlock .client]

/-- `SendMetrics` locks what its call of `Send` locks. -/
def SendMetrics : List LockEvent :=
  Send

/-- `handleMessage` locks nothing itself; when the handler returns a response it calls
`Send`. -/
def handleMessage (data : Frame) (s : Sys) : List LockEvent :=
  match unmarshalMap data with
  | .error _ => []
  | .ok msg =>
    if msgTypeOf msg = TypeWelcome then []
    else if msgTypeOf msg = TypeCommand then
      match s.onCommand with
      | none => []
      | some onCommand =>
        match unmarshalCommand data with
        | .error _ => []
        | .ok cmd =>
          match onCommand cmd with
          | none => []
          | some _ => Send
    else []

/-- `handleDisconnect` holds `c.mu` while it closes and clears the transport, and has
released it when it starts the reconnection loop. -/
def handleDisconnect : List LockEvent :=
  [.lock .client, .unlock .client]

/-- `IsConnected` holds `c.mu` for its whole body. -/
def IsConnected : List LockEvent :=
  [.lock .client, .unlock .client]

/-- `Close` holds `c.mu` for its whole body. -/
def Close : List LockEvent :=
  [.lock .client, .unlock .client]

/-- `SetCommandHandler` locks nothing. -/
def SetCommandHandler : List LockEvent :=
  []

/-- The locks of the receive loop over a script: in each iteration `c.mu` is held while
`c.conn` is fetched, then come the locks of `handleDisconnect` or of `handleMessage`. -/
def readLoop : List ReadResult → Sys → List LockEvent
  | [], s => if s.closeCh then [] else [.lock .client, .unlock .client]
  | r :: rest, s =>
    if s.closeCh then []
    else
      [.lock .client, .unlock .client]
        ++ (match s.conn with
            | none => []
            | some _ =>
              match r with
              | .failed _ => if !s.closed then handleDisconnect else []
              | .message data w =>
                handleMessage data s ++ readLoop rest (Client.handleMessage data w s))

/-- The locks of the reconnection loop over a script: in each iteration the locks of
`NextDelay`, then those of `Connect`. -/
def reconnectLoop : List (GoError × GoError) → Sys → List LockEvent
  | [], _ => []
  | a :: rest, s =>
    if s.closeCh then []
    else
      NextDelay
        ++ (if (Client.reconnectDelay s).2.closeCh then []
            else
              Connect a.1 (Client.reconnectDelay s).2
                ++ (match (Client.Connect a.1 a.2 (Client.reconnectDelay s).2).1 with
                    | some _ =>
                      reconnectLoop rest (Client.Connect a.1 a.2 (Client.reconnectDelay s).2).2
                    | none => []))

/-- The locks of one call on the client. -/
def ofOp (s : Sys) : Op → List LockEvent
  | .connect dial _ => Connect dial s
  | .send _ _ => Send
  | .sendMetrics _ _ => SendMetrics
  | .isConnected => IsConnected
  | .close => Close
  | .setCommandHandler _ => SetCommandHandler
  | .handleMessage data _ => handleMessage data s
  | .handleDisconnect => handleDisconnect
  | .reconnectDelay => NextDelay

end Locks

/-- The mutexes held after a sequence of lock events, `held` being those held before. -/
def heldAfter : List Mutex → List LockEvent → List Mutex
  | held, [] => held
  | held, .lock m :: rest => heldAfter (m :: held) rest
  | held, .unlock m :: rest => heldAfter (held.erase m) rest

/-- True when somewhere in the sequence `inner` is locked while `outer` is held, `held`
being the mutexes held before the sequence. -/
def lockedUnder (outer inner : Mutex) : List Mutex → List LockEvent → Bool
  | _, [] => false
  | held, .lock m :: rest =>
    (m == inner && held.contains outer) || lockedUnder outer inner (m :: held) rest
  | held, .unlock m :: rest => lockedUnder outer inner (held.erase m) rest

end NodePulse

namespace NodePulse

/-! ## The backoff controller -/

theorem wrapInt64_of_bounds (x : Int) (h1 : -9223372036854775808 ≤ x)
    (h2 : x < 9223372036854775808) : wrapInt64 x = x := by
  unfold wrapInt64
  omega

theorem Reconnect.after_succ_delay (r : Reconnect) (k : Nat) (a : Int)
    (ha : 1000000000 ≤ a) (h : (r.after k).delay = min a 30000000000) :
    (r.after (k + 1)).delay = min (a * 2) 30000000000 := by
  have hd : (r.after (k + 1)).delay
      = if wrapInt64 ((r.after k).delay * 2) > 30000000000 then 30000000000
        else wrapInt64 ((r.after k).delay * 2) := by
    simp [Reconnect.after, Reconnect.NextDelay, Multiplier, MaxDelay, Second]
  rw [hd, h]
  have hw : wrapInt64 (min a 30000000000 * 2) = min a 30000000000 * 2 := by
    apply wrapInt64_of_bounds <;> omega
  rw [hw]
  split <;> omega

theorem pow_two_bound (k : Nat) : (1 : Int) ≤ Multiplier ^ k := by
  unfold Multiplier
  exact one_le_pow₀ (by norm_num)

theorem Reconnect.after_delay (r : Reconnect) (k : Nat) (h : r.delay = MinDelay) :
    (r.after k).delay = min (MinDelay * Multiplier ^ k) MaxDelay := by
  induction k with
  | zero => simp [Reconnect.after, h, MinDelay, MaxDelay, Second]
  | succ k ih =>
    have hb := pow_two_bound k
    have hM : MaxDelay = 30000000000 := by norm_num [MaxDelay, Second]
    have hm : MinDelay = 1000000000 := by norm_num [MinDelay, Second]
    rw [hM] at ih ⊢
    have := Reconnect.after_succ_delay r k (MinDelay * Multiplier ^ k) (by rw [hm]; omega) ih
    rw [this, pow_succ, ← mul_assoc]
    rfl

theorem Reconnect.nthDelay_eq (r : Reconnect) (k : Nat) (h : r.delay = MinDelay) :
    r.nthDelay k = min (MinDelay * Multiplier ^ k) MaxDelay := by
  unfold Reconnect.nthDelay
  simpa [Reconnect.NextDelay] using Reconnect.after_delay r k h

theorem Reconnect.after_shift (r : Reconnect) (k : Nat) :
    r.NextDelay.2.after k = r.after (k + 1) := by
  induction k with
  | zero => rfl
  | succ k ih => simp [Reconnect.after, ih]

theorem Reconnect.delays_eq_map (r : Reconnect) (n : Nat) :
    r.delays n = (List.range n).map r.nthDelay := by
  induction n generalizing r with
  | zero => rfl
  | succ n ih =>
    rw [Reconnect.delays, ih, List.range_succ_eq_map, List.map_cons, List.map_map]
    congr 1
    apply List.map_congr_left
    intro i _
    simp [Reconnect.nthDelay, Reconnect.after_shift]

/-- C1: call number `k` (from 0) of `NextDelay` on a new backoff state, or on a state that
was just reset, returns `min (MinDelay * Multiplier ^ k) MaxDelay`; the first eight delays
are 1s, 2s, 4s, 8s, 16s, 30s, 30s, 30s, the first `n` are the first `n` values of that
formula and every call from number 5 on returns 30s; every returned delay lies between `MinDelay` and `MaxDelay`, and a delay is never
smaller than the one returned before it. -/
theorem C1_nextDelay_sequence (r : Reconnect) (k n : Nat) :
    NewReconnect.nthDelay k = min (MinDelay * Multiplier ^ k) MaxDelay
    ∧ r.Reset.nthDelay k = min (MinDelay * Multiplier ^ k) MaxDelay
    ∧ MinDelay = 1 * Second ∧ Multiplier = 2 ∧ MaxDelay = 30 * Second
    ∧ r.Reset.delays 8
        = [1 * Second, 2 * Second, 4 * Second, 8 * Second, 16 * Second,
           30 * Second, 30 * Second, 30 * Second]
    ∧ r.Reset.delays n
        = (List.range n).map (fun i => min (MinDelay * Multiplier ^ i) MaxDelay)
    ∧ r.Reset.nthDelay (k + 5) = 30 * Second
    ∧ MinDelay ≤ r.Reset.nthDelay k
    ∧ r.Reset.nthDelay k ≤ MaxDelay
    ∧ r.Reset.nthDelay k ≤ r.Reset.nthDelay (k + 1) := by
  have hr : r.Reset.delay = MinDelay := rfl
  have hk := Reconnect.nthDelay_eq r.Reset k hr
  have hk1 := Reconnect.nthDelay_eq r.Reset (k + 1) hr
  have hb := pow_two_bound k
  have hM : MaxDelay = 30000000000 := by norm_num [MaxDelay, Second]
  have hm : MinDelay = 1000000000 := by norm_num [MinDelay, Second]
  have hS : Second = 1000000000 := rfl
  have hnew : r.Reset = NewReconnect := rfl
  refine ⟨Reconnect.nthDelay_eq _ k rfl, hk, rfl, rfl, rfl, ?_, ?_, ?_, ?_, ?_, ?_⟩
  · rw [hnew]
    decide
  · rw [Reconnect.delays_eq_map]
    apply List.map_congr_left
    intro i _
    exact Reconnect.nthDelay_eq r.Reset i hr
  · rw [Reconnect.nthDelay_eq r.Reset (k + 5) hr, pow_add, hM, hm, hS]
    have h5v : Multiplier ^ 5 = 32 := by norm_num [Multiplier]
    rw [h5v]
    clear hk hk1
    generalize Multiplier ^ k = a at hb
    omega
  · rw [hk, hM, hm]
    omega
  · rw [hk]
    exact min_le_right _ _
  · rw [hk, hk1, pow_succ, ← mul_assoc]
    have ha : 1000000000 ≤ MinDelay * Multiplier ^ k := by
      rw [hm]
      omega
    clear hk hk1 hb
    generalize MinDelay * Multiplier ^ k = a at ha
    rw [hM]
    show min a 30000000000 ≤ min (a * 2) 30000000000
    omega


/-! ## Reset on a successful connect -/

theorem Client.reconnectLoop_failed (s : Sys) (e : String) (w : GoError)
    (rest : List (GoError × GoError)) (hc : s.closed = false) (hch : s.closeCh = false) :
    Client.reconnectLoop ((some e, w) :: rest) s
      = Client.reconnectLoop rest
          { s with
              reconnect := s.reconnect.NextDelay.2
              trace := s.trace ++ [Event.wait s.reconnect.NextDelay.1]
                ++ [Event.dial s.serverURL s.apiKey none] } := by
  simp [Client.reconnectLoop, Client.reconnectDelay, Client.Connect, hc, hch]

theorem Client.reconnectLoop_connected (s : Sys) (w : GoError)
    (rest : List (GoError × GoError)) (hc : s.closed = false) (hch : s.closeCh = false) :
    Client.reconnectLoop ((none, w) :: rest) s
      = ({ s with
            reconnect := { delay := MinDelay, attempt := 0 }
            conn := some s.dialed
            dialed := s.dialed + 1
            trace := s.trace ++ [Event.wait s.reconnect.NextDelay.1]
              ++ [Event.dial s.serverURL s.apiKey (some s.dialed)]
              ++ [Event.write s.dialed
                    (Value.info { Type_ := TypeInfo, Version := s.version, Arch := s.arch }) w]
              ++ [Event.goReadLoop] }, LoopStatus.exited) := by
  simp [Client.reconnectLoop, Client.reconnectDelay, Client.Connect, Client.sendJSON,
    Reconnect.Reset, hc, hch]

theorem Client.reconnectLoop_resets (pre : List (GoError × GoError)) (w : GoError) (s : Sys)
    (hpre : ∀ a ∈ pre, a.1 ≠ none) (hc : s.closed = false) (hch : s.closeCh = false) :
    (Client.reconnectLoop (pre ++ [(none, w)]) s).2 = LoopStatus.exited
    ∧ (Client.reconnectLoop (pre ++ [(none, w)]) s).1.reconnect
        = { delay := MinDelay, attempt := 0 }
    ∧ (Client.reconnectLoop (pre ++ [(none, w)]) s).1.conn.isSome = true := by
  induction pre generalizing s with
  | nil =>
    rw [List.nil_append, Client.reconnectLoop_connected s w [] hc hch]
    simp
  | cons a pre ih =>
    obtain ⟨d, w1⟩ := a
    have hd : d ≠ none := hpre (d, w1) (List.mem_cons_self _ _)
    obtain ⟨e, rfl⟩ : ∃ e, d = some e := by
      cases d with
      | none => exact absurd rfl hd
      | some e => exact ⟨e, rfl⟩
    rw [List.cons_append, Client.reconnectLoop_failed s e w1 _ hc hch]
    exact ih _ (fun a ha => hpre a (List.mem_cons_of_mem _ ha)) hc hch

/-- C2: a `Connect` whose dial succeeds leaves the attempt counter at 0 and the next
`NextDelay` returns `MinDelay`, one second; so does a reconnection loop that connects after
any number of failed attempts. In the scenario (a connection is lost, three dials fail, the
fourth succeeds) the failed attempts wait 1s, 2s and 4s in that order (the fourth attempt
waits 8s), and the first delay after the next disconnection is 1s again. -/
theorem C2_reset_after_connect (s : Sys) (pre : List (GoError × GoError)) (w : GoError)
    (e1 e2 e3 : String) (hpre : ∀ a ∈ pre, a.1 ≠ none)
    (hc : s.closed = false) (hch : s.closeCh = false) :
    (Client.Connect none w s).1 = none
    ∧ (Client.Connect none w s).2.reconnect.Attempt = 0
    ∧ (Client.Connect none w s).2.reconnect.NextDelay.1 = MinDelay
    ∧ (Client.reconnectLoop (pre ++ [(none, w)]) s).2 = LoopStatus.exited
    ∧ (Client.reconnectLoop (pre ++ [(none, w)]) s).1.reconnect.Attempt = 0
    ∧ (Client.reconnectLoop (pre ++ [(none, w)]) s).1.reconnect.NextDelay.1 = MinDelay
    ∧ MinDelay = 1 * Second
    ∧ (Client.reconnectLoop (threeFailuresThenSuccess e1 e2 e3 w)
          (Client.handleDisconnect (Client.Connect none w s).2)).1.trace
        = (Client.handleDisconnect (Client.Connect none w s).2).trace
          ++ [Event.wait (1 * Second), Event.dial s.serverURL s.apiKey none,
              Event.wait (2 * Second), Event.dial s.serverURL s.apiKey none,
              Event.wait (4 * Second), Event.dial s.serverURL s.apiKey none,
              Event.wait (8 * Second), Event.dial s.serverURL s.apiKey (some (s.dialed + 1)),
              Event.write (s.dialed + 1)
                (Value.info { Type_ := TypeInfo, Version := s.version, Arch := s.arch }) w,
              Event.goReadLoop]
    ∧ (Client.reconnectDelay (Client.handleDisconnect
          (Client.reconnectLoop (threeFailuresThenSuccess e1 e2 e3 w)
            (Client.handleDisconnect (Client.Connect none w s).2)).1)).1 = 1 * Second := by
  have hloop := Client.reconnectLoop_resets pre w s hpre hc hch
  refine ⟨?_, ?_, ?_, hloop.1, ?_, ?_, rfl, ?_, ?_⟩
  · simp [Client.Connect, hc]
  · simp [Client.Connect, Client.sendJSON, Reconnect.Reset, Reconnect.Attempt, hc]
  · simp [Client.Connect, Client.sendJSON, Reconnect.Reset, Reconnect.NextDelay, hc]
  · rw [hloop.2.1]
    rfl
  · rw [hloop.2.1]
    rfl
  · simp [threeFailuresThenSuccess, Client.reconnectLoop, Client.reconnectDelay,
      Client.Connect, Client.sendJSON, Client.handleDisconnect, Reconnect.Reset,
      Reconnect.NextDelay, hc, hch]
    decide
  · simp [threeFailuresThenSuccess, Client.reconnectLoop, Client.reconnectDelay,
      Client.Connect, Client.sendJSON, Client.handleDisconnect, Reconnect.Reset,
      Reconnect.NextDelay, hc, hch]
    decide

/-- C2 at a new client whose reconnection loop fails once before it connects. -/
theorem C2_reset_after_connect_witness :
    (Client.reconnectLoop ([(some "refused", none)] ++ [(none, none)])
        (NewClient "ws://host/agent" "key" "dev" "amd64")).1.reconnect.Attempt = 0
    ∧ (Client.reconnectDelay (Client.handleDisconnect
          (Client.reconnectLoop (threeFailuresThenSuccess "a" "b" "c" none)
            (Client.handleDisconnect
              (Client.Connect none none
                (NewClient "ws://host/agent" "key" "dev" "amd64")).2)).1)).1 = 1 * Second :=
  have h := C2_reset_after_connect (NewClient "ws://host/agent" "key" "dev" "amd64")
    [(some "refused", none)] none "a" "b" "c" (by simp) rfl rfl
  ⟨h.2.2.2.2.1, h.2.2.2.2.2.2.2.2⟩


/-! ## Invariants of the client -/

theorem TypeCommand_ne_TypeWelcome : TypeCommand ≠ TypeWelcome := by
  decide

theorem Client.Send_state (v : Value) (w : GoError) (s : Sys) :
    (Client.Send v w s).2 = s
    ∨ ∃ c, s.conn = some c
        ∧ (Client.Send v w s).2 = { s with trace := s.trace ++ [Event.write c v w] } := by
  unfold Client.Send
  cases hconn : s.conn with
  | none => exact Or.inl rfl
  | some c =>
    right
    exact ⟨c, rfl, by simp [Client.sendJSON, hconn]⟩

theorem Client.handleMessage_state (data : Frame) (w : GoError) (s : Sys) :
    Client.handleMessage data w s = s
    ∨ ∃ resp, Client.handleMessage data w s = (Client.Send (Value.response resp) w s).2 := by
  unfold Client.handleMessage
  cases unmarshalMap data with
  | error e => exact Or.inl rfl
  | ok msg =>
    by_cases h1 : msgTypeOf msg = TypeWelcome
    · simp [h1]
    · by_cases h2 : msgTypeOf msg = TypeCommand
      · cases s.onCommand with
        | none => simp [h1, h2]
        | some onCommand =>
          cases unmarshalCommand data with
          | error e => simp [h1, h2]
          | ok cmd =>
            cases hr : onCommand cmd with
            | none => simp [h1, h2, hr]
            | some resp =>
              right
              exact ⟨resp, by simp [h2, hr, TypeCommand_ne_TypeWelcome]⟩
      · simp [h1, h2]

theorem Sys.Inv.append (s : Sys) (h : s.Inv) (t : List Event)
    (hchan : chanCloses t = 0) (hconn : ∀ c, connCloses c t = 0) :
    Sys.Inv { s with trace := s.trace ++ t } := by
  have hc : ∀ c, connCloses c (s.trace ++ t) = connCloses c s.trace := by
    intro c
    have := hconn c
    simp only [connCloses] at this ⊢
    rw [List.countP_append, this, Nat.add_zero]
  have hch : chanCloses (s.trace ++ t) = chanCloses s.trace := by
    simp only [chanCloses] at hchan ⊢
    rw [List.countP_append, hchan, Nat.add_zero]
  constructor
  · exact h.chan
  · exact h.closedConn
  · exact h.noPanic
  · show chanCloses (s.trace ++ t) = _
    rw [hch]
    exact h.chanOnce
  · intro c hcn
    show c < s.dialed ∧ connCloses c (s.trace ++ t) = 0
    rw [hc]
    exact h.connFresh c hcn
  · intro c
    show connCloses c (s.trace ++ t) ≤ 1
    rw [hc]
    exact h.closesOnce c
  · intro c hd
    show connCloses c (s.trace ++ t) = 0
    rw [hc]
    exact h.closesDialed c hd

theorem Sys.Inv.Send (s : Sys) (h : s.Inv) (v : Value) (w : GoError) :
    (Client.Send v w s).2.Inv := by
  rcases Client.Send_state v w s with h1 | ⟨c, _, h1⟩
  · rw [h1]
    exact h
  · rw [h1]
    exact Sys.Inv.append s h _ rfl (fun _ => rfl)

theorem Sys.Inv.handleMessage (s : Sys) (h : s.Inv) (data : Frame) (w : GoError) :
    (Client.handleMessage data w s).Inv := by
  rcases Client.handleMessage_state data w s with h1 | ⟨resp, h1⟩
  · rw [h1]
    exact h
  · rw [h1]
    exact Sys.Inv.Send s h _ w


theorem connCloses_append_closeConn (c d : ConnId) (t : List Event) :
    connCloses c (t ++ [Event.closeConn d]) = connCloses c t + (if d = c then 1 else 0) := by
  by_cases h : d = c <;> simp [connCloses, List.countP_append, List.countP_cons, Event.isCloseConn, h]

theorem Client.Connect_failed (s : Sys) (e : String) (w : GoError) (hc : s.closed = false) :
    Client.Connect (some e) w s
      = (some e, { s with trace := s.trace ++ [Event.dial s.serverURL s.apiKey none] }) := by
  simp [Client.Connect, hc]

theorem Client.Connect_dialled (s : Sys) (w : GoError) (hc : s.closed = false) :
    Client.Connect none w s
      = (none,
          { s with
              conn := some s.dialed
              reconnect := { delay := MinDelay, attempt := 0 }
              dialed := s.dialed + 1
              trace := s.trace ++ [Event.dial s.serverURL s.apiKey (some s.dialed),
                Event.write s.dialed
                  (Value.info { Type_ := TypeInfo, Version := s.version, Arch := s.arch }) w,
                Event.goReadLoop] }) := by
  simp [Client.Connect, Client.sendJSON, Reconnect.Reset, hc]

theorem Client.Connect_closed (s : Sys) (dial w : GoError) (hc : s.closed = true) :
    Client.Connect dial w s = (none, s) := by
  simp [Client.Connect, hc]

theorem Sys.Inv.Connect (s : Sys) (h : s.Inv) (dial w : GoError) :
    (Client.Connect dial w s).2.Inv := by
  by_cases hc : s.closed = true
  · rw [Client.Connect_closed s dial w hc]
    exact h
  · have hcf : s.closed = false := by simpa using hc
    cases dial with
    | some e =>
      rw [Client.Connect_failed s e w hcf]
      exact Sys.Inv.append s h _ rfl (fun _ => rfl)
    | none =>
      rw [Client.Connect_dialled s w hcf]
      have hcount : ∀ c, connCloses c
          (s.trace ++ [Event.dial s.serverURL s.apiKey (some s.dialed),
            Event.write s.dialed
              (Value.info { Type_ := TypeInfo, Version := s.version, Arch := s.arch }) w,
            Event.goReadLoop]) = connCloses c s.trace := by
        intro c
        simp [connCloses, List.countP_append, List.countP_cons, Event.isCloseConn]
      constructor
      · exact h.chan
      · intro h1
        exact absurd h1 hc
      · exact h.noPanic
      · dsimp only
        have := h.chanOnce
        simpa [chanCloses, List.countP_append, List.countP_cons, Event.isCloseChan] using this
      · intro c hcn
        dsimp only at hcn ⊢
        have hcd : s.dialed = c := by simpa using hcn
        subst hcd
        refine ⟨Nat.lt_succ_self _, ?_⟩
        rw [hcount]
        exact h.closesDialed _ (Nat.le_refl _)
      · intro c
        dsimp only
        rw [hcount]
        exact h.closesOnce c
      · intro c hd
        dsimp only at hd ⊢
        rw [hcount]
        exact h.closesDialed c (Nat.le_of_succ_le hd)

theorem Sys.Inv.dropConn (s : Sys) (h : s.Inv) (c : ConnId) (hconn : s.conn = some c) :
    Sys.Inv { s with trace := s.trace ++ [Event.closeConn c], conn := none } := by
  have hf := h.connFresh c hconn
  constructor
  · exact h.chan
  · intro _
    rfl
  · exact h.noPanic
  · have := h.chanOnce
    simpa [chanCloses, List.countP_append, List.countP_cons, Event.isCloseChan] using this
  · intro d hd
    exact absurd hd (by simp)
  · intro d
    show connCloses d (s.trace ++ [Event.closeConn c]) ≤ 1
    rw [connCloses_append_closeConn]
    by_cases hcd : c = d
    · subst hcd
      simp [hf.2]
    · have := h.closesOnce d
      simpa [hcd] using this
  · intro d hd
    show connCloses d (s.trace ++ [Event.closeConn c]) = 0
    rw [connCloses_append_closeConn]
    have hne : c ≠ d := by
      intro hcd
      subst hcd
      exact absurd hd (Nat.not_le.mpr hf.1)
    simpa [hne] using h.closesDialed d hd

theorem Sys.Inv.handleDisconnect (s : Sys) (h : s.Inv) : (Client.handleDisconnect s).Inv := by
  unfold Client.handleDisconnect
  cases hconn : s.conn with
  | none =>
    exact Sys.Inv.append s h _ rfl (fun _ => rfl)
  | some c =>
    exact Sys.Inv.append _ (Sys.Inv.dropConn s h c hconn) _ rfl (fun _ => rfl)

theorem Client.Close_closed (s : Sys) (hc : s.closed = true) : Client.Close s = s := by
  simp [Client.Close, hc]

theorem Client.Close_open (s : Sys) (hc : s.closed = false) (hch : s.closeCh = false) :
    Client.Close s
      = { s with
            closed := true
            closeCh := true
            conn := none
            trace := s.trace ++ Event.closeChan ::
              (match s.conn with
               | some c => [Event.closeConn c]
               | none => []) } := by
  cases hconn : s.conn <;> simp [Client.Close, hc, hch, hconn]

theorem Client.Close_sets_closed (s : Sys) : (Client.Close s).closed = true := by
  unfold Client.Close
  by_cases hc : s.closed = true
  · simp [hc]
  · by_cases hch : s.closeCh = true
    · simp [hc, hch]
    · cases hconn : s.conn <;> simp [hc, hch, hconn]

theorem Client.closeTimes_succ (n : Nat) (s : Sys) :
    Client.closeTimes (n + 1) s = Client.Close s := by
  induction n generalizing s with
  | zero => rfl
  | succ n ih =>
    rw [Client.closeTimes, ih, Client.Close_closed _ (Client.Close_sets_closed s)]

theorem Sys.Inv.Close (s : Sys) (h : s.Inv) : (Client.Close s).Inv := by
  by_cases hc : s.closed = true
  · rw [Client.Close_closed s hc]
    exact h
  · have hcf : s.closed = false := by simpa using hc
    have hch : s.closeCh = false := by rw [h.chan, hcf]
    rw [Client.Close_open s hcf hch]
    have hchan : chanCloses (s.trace ++ Event.closeChan ::
        (match s.conn with
         | some c => [Event.closeConn c]
         | none => [])) = 1 := by
      have := h.chanOnce
      rw [hcf] at this
      cases s.conn <;>
        simpa [chanCloses, List.countP_append, List.countP_cons, Event.isCloseChan] using this
    have hconn : ∀ d, connCloses d (s.trace ++ Event.closeChan ::
        (match s.conn with
         | some c => [Event.closeConn c]
         | none => []))
        = connCloses d s.trace + (if s.conn = some d then 1 else 0) := by
      intro d
      cases hcn : s.conn with
      | none => simp [connCloses, List.countP_append, List.countP_cons, Event.isCloseConn]
      | some c =>
        by_cases hcd : c = d <;>
          simp [connCloses, List.countP_append, List.countP_cons, Event.isCloseConn, hcd]
    constructor
    · rfl
    · intro _
      rfl
    · exact h.noPanic
    · dsimp only
      rw [hchan]
      rfl
    · intro d hd
      exact absurd hd (by simp)
    · intro d
      dsimp only
      rw [hconn]
      by_cases hd : s.conn = some d
      · have := (h.connFresh d hd).2
        simp [hd, this]
      · have := h.closesOnce d
        simpa [hd] using this
    · intro d hd
      dsimp only at hd ⊢
      rw [hconn]
      have hne : s.conn ≠ some d := by
        intro hcn
        exact absurd hd (Nat.not_le.mpr (h.connFresh d hcn).1)
      simpa [hne] using h.closesDialed d hd

theorem Sys.Inv.NewClient (serverURL apiKey version arch : String) :
    (NewClient serverURL apiKey version arch).Inv := by
  constructor
  · rfl
  · intro h
    rfl
  · rfl
  · rfl
  · intro c h
    exact absurd h (by simp [NodePulse.NewClient])
  · intro c
    simp [NodePulse.NewClient, connCloses]
  · intro c _
    simp [NodePulse.NewClient, connCloses]

theorem Sys.Inv.step_preserved (s : Sys) (h : s.Inv) (op : Op) : (s.step op).Inv := by
  cases op with
  | connect dial infoWrite => exact Sys.Inv.Connect s h dial infoWrite
  | send v w => exact Sys.Inv.Send s h v w
  | sendMetrics data w => exact Sys.Inv.Send s h _ w
  | isConnected => exact h
  | close => exact Sys.Inv.Close s h
  | setCommandHandler handler =>
    exact ⟨h.chan, h.closedConn, h.noPanic, h.chanOnce, h.connFresh, h.closesOnce,
      h.closesDialed⟩
  | handleMessage data w => exact Sys.Inv.handleMessage s h data w
  | handleDisconnect => exact Sys.Inv.handleDisconnect s h
  | reconnectDelay =>
    exact Sys.Inv.append { s with reconnect := s.reconnect.NextDelay.2 }
      ⟨h.chan, h.closedConn, h.noPanic, h.chanOnce, h.connFresh, h.closesOnce,
        h.closesDialed⟩ _ rfl (fun _ => rfl)

theorem Sys.Inv.run (ops : List Op) (s : Sys) (h : s.Inv) : (s.run ops).Inv := by
  induction ops generalizing s with
  | nil => exact h
  | cons op ops ih => exact ih _ (Sys.Inv.step_preserved s h op)

theorem Reachable.inv (s : Sys) (h : Reachable s) : s.Inv := by
  obtain ⟨serverURL, apiKey, version, arch, ops, rfl⟩ := h
  exact Sys.Inv.run ops _ (Sys.Inv.NewClient serverURL apiKey version arch)

theorem Reachable.step_reachable (s : Sys) (h : Reachable s) (op : Op) : Reachable (s.step op) := by
  obtain ⟨serverURL, apiKey, version, arch, ops, rfl⟩ := h
  exact ⟨serverURL, apiKey, version, arch, ops ++ [op], by simp [Sys.run, List.foldl_append]⟩

theorem Reachable.closeTimes (n : Nat) (s : Sys) (h : Reachable s) :
    Reachable (Client.closeTimes n s) := by
  induction n generalizing s with
  | zero => exact h
  | succ n ih => exact ih _ (Reachable.step_reachable s h Op.close)


/-- C3: in every state a client can be in, calling `Close` `n ≥ 1` times gives the state
one call gives: the closed flag is set, there is no transport, the cancellation channel is
closed. The calls add to the trace what one call adds (nothing when the client was closed
already, else the close of the channel and then of the transport held, if any), so no
transport is closed twice and the channel is closed exactly once; no number `m` of calls
ends in a panic. -/
theorem C3_close_idempotent (s : Sys) (n m : Nat) (c : ConnId) (hs : Reachable s)
    (hn : 1 ≤ n) :
    Client.closeTimes n s = Client.Close s
    ∧ (Client.closeTimes n s).closed = true
    ∧ (Client.closeTimes n s).conn = none
    ∧ Client.IsConnected (Client.closeTimes n s) = false
    ∧ (Client.closeTimes n s).closeCh = true
    ∧ (Client.closeTimes n s).trace
        = s.trace ++
          (if s.closed then []
           else Event.closeChan ::
             (match s.conn with
              | some d => [Event.closeConn d]
              | none => []))
    ∧ connCloses c (Client.closeTimes n s).trace ≤ 1
    ∧ chanCloses (Client.closeTimes n s).trace = 1
    ∧ (Client.closeTimes m s).panicked = false
    ∧ chanCloses (Client.closeTimes m s).trace ≤ 1 := by
  obtain ⟨k, rfl⟩ : ∃ k, n = k + 1 := ⟨n - 1, by omega⟩
  have hinv := Reachable.inv s hs
  have hcl := Reachable.inv _ (Reachable.closeTimes (k + 1) s hs)
  have hm := Reachable.inv _ (Reachable.closeTimes m s hs)
  have hclosed : (Client.closeTimes (k + 1) s).closed = true := by
    rw [Client.closeTimes_succ]
    exact Client.Close_sets_closed s
  have hconn := hcl.closedConn hclosed
  refine ⟨Client.closeTimes_succ k s, hclosed, hconn, ?_, ?_, ?_, hcl.closesOnce c, ?_,
    hm.noPanic, ?_⟩
  · simp [Client.IsConnected, hconn]
  · rw [hcl.chan, hclosed]
  · rw [Client.closeTimes_succ]
    by_cases hc : s.closed = true
    · rw [Client.Close_closed s hc]
      simp [hc]
    · have hcf : s.closed = false := by simpa using hc
      rw [Client.Close_open s hcf (by rw [hinv.chan, hcf])]
      simp [hcf]
  · rw [hcl.chanOnce, hclosed]
    rfl
  · rw [hm.chanOnce]
    split <;> omega

/-- C3 at a connected client closed three times. -/
theorem C3_close_idempotent_witness :
    Client.closeTimes 3 ((NewClient "ws://host/agent" "key" "dev" "amd64").run
        [Op.connect none none])
      = Client.Close ((NewClient "ws://host/agent" "key" "dev" "amd64").run
        [Op.connect none none])
    ∧ connCloses 0 (Client.closeTimes 3
        ((NewClient "ws://host/agent" "key" "dev" "amd64").run
          [Op.connect none none])).trace ≤ 1 :=
  have h := C3_close_idempotent
    ((NewClient "ws://host/agent" "key" "dev" "amd64").run [Op.connect none none]) 3 3 0
    ⟨"ws://host/agent", "key", "dev", "amd64", [Op.connect none none], rfl⟩ (by decide)
  ⟨h.1, h.2.2.2.2.2.2.1⟩


/-! ## The closed flag -/

theorem Client.Send_closed (v : Value) (w : GoError) (s : Sys) :
    (Client.Send v w s).2.closed = s.closed := by
  rcases Client.Send_state v w s with h | ⟨c, _, h⟩ <;> rw [h]

theorem Client.handleMessage_closed (data : Frame) (w : GoError) (s : Sys) :
    (Client.handleMessage data w s).closed = s.closed := by
  rcases Client.handleMessage_state data w s with h | ⟨resp, h⟩
  · rw [h]
  · rw [h, Client.Send_closed]

theorem Sys.step_closed (s : Sys) (op : Op) (hc : s.closed = true) :
    (s.step op).closed = true := by
  cases op with
  | connect dial infoWrite =>
    show (Client.Connect dial infoWrite s).2.closed = true
    rw [Client.Connect_closed s dial infoWrite hc]
    exact hc
  | send v w => exact (Client.Send_closed v w s).trans hc
  | sendMetrics data w => exact (Client.Send_closed _ w s).trans hc
  | isConnected => exact hc
  | close => exact Client.Close_sets_closed s
  | setCommandHandler handler => exact hc
  | handleMessage data w => exact (Client.handleMessage_closed data w s).trans hc
  | handleDisconnect =>
    show (Client.handleDisconnect s).closed = true
    unfold Client.handleDisconnect
    cases s.conn <;> exact hc
  | reconnectDelay => exact hc

theorem Sys.run_closed (ops : List Op) (s : Sys) (hc : s.closed = true) :
    (s.run ops).closed = true := by
  induction ops generalizing s with
  | nil => exact hc
  | cons op ops ih => exact ih _ (Sys.step_closed s op hc)

/-- C4: once `Close` was called in a state a client can be in, the closed flag stays set
through every sequence of calls (Connect, Send, SendMetrics, IsConnected, Close, the
handling of an inbound frame or of a disconnection, a delay of the reconnection loop, a
change of handler), there is no transport, and `Connect`, whatever the dial would answer,
returns nil and leaves the whole state as it was: nothing is dialled or written, the
backoff state is not reset and `IsConnected` stays false. -/
theorem C4_closed_terminal (s : Sys) (ops : List Op) (dial w : GoError)
    (hs : Reachable s) :
    ((Client.Close s).run ops).closed = true
    ∧ Client.IsConnected ((Client.Close s).run ops) = false
    ∧ Client.Connect dial w ((Client.Close s).run ops) = (none, (Client.Close s).run ops)
    ∧ (Client.Connect dial w ((Client.Close s).run ops)).2.trace
        = ((Client.Close s).run ops).trace
    ∧ (Client.Connect dial w ((Client.Close s).run ops)).2.reconnect
        = ((Client.Close s).run ops).reconnect
    ∧ Client.IsConnected (Client.Connect dial w ((Client.Close s).run ops)).2 = false := by
  have hc := Sys.run_closed ops _ (Client.Close_sets_closed s)
  have hinv := Sys.Inv.run ops _ (Sys.Inv.Close s (Reachable.inv s hs))
  have hconn : Client.IsConnected ((Client.Close s).run ops) = false := by
    simp [Client.IsConnected, hinv.closedConn hc]
  have hcon := Client.Connect_closed _ dial w hc
  refine ⟨hc, hconn, hcon, ?_, ?_, ?_⟩
  · rw [hcon]
  · rw [hcon]
  · rw [hcon]
    exact hconn

/-- C4 at a connected client that is closed and then asked to connect, to send, to handle
a command and to connect again. -/
theorem C4_closed_terminal_witness :
    (((Client.Close ((NewClient "ws://host/agent" "key" "dev" "amd64").run
          [Op.connect none none])).run
        [Op.connect none none, Op.sendMetrics JSON.null none, Op.close]).closed = true)
    ∧ Client.Connect none none
        ((Client.Close ((NewClient "ws://host/agent" "key" "dev" "amd64").run
          [Op.connect none none])).run
        [Op.connect none none, Op.sendMetrics JSON.null none, Op.close])
      = (none, (Client.Close ((NewClient "ws://host/agent" "key" "dev" "amd64").run
          [Op.connect none none])).run
        [Op.connect none none, Op.sendMetrics JSON.null none, Op.close]) :=
  have h := C4_closed_terminal
    ((NewClient "ws://host/agent" "key" "dev" "amd64").run [Op.connect none none])
    [Op.connect none none, Op.sendMetrics JSON.null none, Op.close] none none
    ⟨"ws://host/agent", "key", "dev", "amd64", [Op.connect none none], rfl⟩
  ⟨h.1, h.2.2.1⟩


/-! ## Sending -/

/-- C5: without a transport, `Send` of any value and `SendMetrics` of any data return nil
and leave the whole state, the trace of writes included, as it was. -/
theorem C5_send_disconnected (s : Sys) (v : Value) (data : JSON) (w : GoError)
    (h : s.conn = none) :
    Client.Send v w s = (none, s)
    ∧ Client.SendMetrics data w s = (none, s)
    ∧ (Client.Send v w s).2.trace = s.trace
    ∧ (Client.SendMetrics data w s).2.trace = s.trace := by
  simp [Client.SendMetrics, Client.Send, h]

/-- C5 at a client whose connection was lost. -/
theorem C5_send_disconnected_witness :
    Client.Send (Value.other (JSON.str "ping")) none
        ((NewClient "ws://host/agent" "key" "dev" "amd64").run
          [Op.connect none none, Op.handleDisconnect])
      = (none, (NewClient "ws://host/agent" "key" "dev" "amd64").run
          [Op.connect none none, Op.handleDisconnect]) :=
  (C5_send_disconnected
    ((NewClient "ws://host/agent" "key" "dev" "amd64").run
      [Op.connect none none, Op.handleDisconnect])
    (Value.other (JSON.str "ping")) JSON.null none rfl).1

/-! ## The command handler of main -/

theorem mainHandler_response (metrics : JSON) (cmd : CommandMessage) :
    ∃ resp, mainHandler metrics cmd = some resp
      ∧ resp.Type_ = "response"
      ∧ resp.ID = cmd.ID
      ∧ (resp.Success = true ↔ cmd.Command = "get_stats")
      ∧ (cmd.Command = "get_stats"
          ∨ (resp.Success = false
              ∧ resp.Error = "unknown command: " ++ cmd.Command
              ∧ resp.Error ≠ "")) := by
  by_cases h : cmd.Command = "get_stats"
  · refine ⟨{ Type_ := TypeResponse, ID := cmd.ID, Success := true, Data := metrics,
              Error := "" }, ?_, rfl, rfl, ?_, Or.inl h⟩
    · simp [mainHandler, h]
    · simp [h]
  · refine ⟨{ Type_ := TypeResponse, ID := cmd.ID, Success := false, Data := JSON.null,
              Error := "unknown command: " ++ cmd.Command }, ?_, rfl, rfl, ?_,
        Or.inr ⟨rfl, rfl, ?_⟩⟩
    · simp [mainHandler, h]
    · simp [h]
    intro he
    have := congrArg String.length he
    simp only [String.length_append] at this
    have h17 : "unknown command: ".length = 17 := by decide
    have h0 : "".length = 0 := rfl
    omega


/-- C7: for every command the handler of `main` returns a response of type `response`
whose id is the id of the command; it reports success exactly when the command is `get_stats`,
and for every other command the error text is `unknown command: ` followed by the name,
which is not empty. -/
theorem C7_mainHandler_total (metrics : JSON) (cmd : CommandMessage) :
    ∃ resp, mainHandler metrics cmd = some resp
      ∧ resp.Type_ = "response"
      ∧ resp.ID = cmd.ID
      ∧ (resp.Success = true ↔ cmd.Command = "get_stats")
      ∧ (cmd.Command = "get_stats"
          ∨ (resp.Success = false
              ∧ resp.Error = "unknown command: " ++ cmd.Command
              ∧ resp.Error ≠ "")) :=
  mainHandler_response metrics cmd

/-! ## Inbound frames -/

theorem Client.handleMessage_command (s : Sys) (data : Frame) (w : GoError)
    (kvs : List (String × JSON)) (onCommand : Handler) (cmd : CommandMessage)
    (hobj : data = Frame.value (JSON.obj kvs))
    (htype : msgTypeOf (some kvs) = TypeCommand)
    (hh : s.onCommand = some onCommand)
    (hcmd : unmarshalCommand data = Except.ok cmd) :
    Client.handleMessage data w s
      = match onCommand cmd with
        | none => s
        | some resp => (Client.Send (Value.response resp) w s).2 := by
  subst hobj
  simp only [Client.handleMessage, unmarshalMap, htype, hh, hcmd]
  simp [TypeCommand_ne_TypeWelcome]

/-- C6, as the code has it: let a frame be a JSON object whose type is `command`, handled
while a handler is registered. When the frame also decodes into a `CommandMessage` `cmd`,
the handler returns a response for `cmd` and the client has a transport, handling the
frame writes exactly that one response on the transport and changes nothing else. When the
frame does not decode into a `CommandMessage`, or the handler returns nil, or the client has
no transport, handling the frame changes nothing and writes nothing. With the handler of
`main` registered, a frame that decodes into `cmd` on a client with a transport gets one
response of type `response` with the id of `cmd`, whatever the command name. -/
theorem C6_command_response (s : Sys) (data : Frame) (w : GoError)
    (kvs : List (String × JSON)) (onCommand : Handler) (metrics : JSON)
    (hobj : data = Frame.value (JSON.obj kvs))
    (htype : msgTypeOf (some kvs) = TypeCommand)
    (hh : s.onCommand = some onCommand) :
    (∀ cmd resp c, unmarshalCommand data = Except.ok cmd → onCommand cmd = some resp →
        s.conn = some c →
        Client.handleMessage data w s
          = { s with trace := s.trace ++ [Event.write c (Value.response resp) w] })
    ∧ ((∃ e, unmarshalCommand data = Except.error e) → Client.handleMessage data w s = s)
    ∧ (∀ cmd, unmarshalCommand data = Except.ok cmd → onCommand cmd = none →
        Client.handleMessage data w s = s)
    ∧ (s.conn = none → Client.handleMessage data w s = s)
    ∧ (∀ cmd c, unmarshalCommand data = Except.ok cmd → s.conn = some c →
        ∃ r, r.Type_ = TypeResponse ∧ r.ID = cmd.ID
          ∧ Client.handleMessage data w
              (Client.SetCommandHandler (some (mainHandler metrics)) s)
            = { Client.SetCommandHandler (some (mainHandler metrics)) s with
                  trace := s.trace ++ [Event.write c (Value.response r) w] }) := by
  refine ⟨?_, ?_, ?_, ?_, ?_⟩
  · intro cmd resp c hcmd hresp hconn
    rw [Client.handleMessage_command s data w kvs onCommand cmd hobj htype hh hcmd, hresp]
    simp [Client.Send, Client.sendJSON, hconn]
  · rintro ⟨e, he⟩
    subst hobj
    simp only [Client.handleMessage, unmarshalMap, htype, hh, he]
    simp
  · intro cmd hcmd hresp
    rw [Client.handleMessage_command s data w kvs onCommand cmd hobj htype hh hcmd, hresp]
  · intro hconn
    rcases Client.handleMessage_state data w s with h | ⟨resp, h⟩
    · exact h
    · rw [h]
      simp [Client.Send, hconn]
  · intro cmd c hcmd hconn
    obtain ⟨r, hr, ht, hi, _⟩ := mainHandler_response metrics cmd
    refine ⟨r, ht, hi, ?_⟩
    rw [Client.handleMessage_command _ data w kvs (mainHandler metrics) cmd hobj htype rfl hcmd,
      hr]
    simp [Client.Send, Client.sendJSON, Client.SetCommandHandler, hconn]

/-- C6 in the scenario of the specification: the frame
`{"type":"command","id":"42","command":"get_stats","args":{}}` reaches a connected client
with the handler of `main`; one response with id `42` and success is written. -/
theorem C6_command_response_witness :
    Client.handleMessage getStatsFrame none (connectedAgent (JSON.obj []))
      = { connectedAgent (JSON.obj []) with
            trace := (connectedAgent (JSON.obj [])).trace
              ++ [Event.write 0
                    (Value.response
                      { Type_ := "response", ID := "42", Success := true,
                        Data := JSON.obj [], Error := "" }) none] } :=
  (C6_command_response (connectedAgent (JSON.obj [])) getStatsFrame none
    [("type", JSON.str "command"), ("id", JSON.str "42"),
      ("command", JSON.str "get_stats"), ("args", JSON.obj [])]
    (mainHandler (JSON.obj [])) JSON.null rfl (by decide) rfl).1
    { Type_ := "command", ID := "42", Command := "get_stats", Args := some [] }
    { Type_ := "response", ID := "42", Success := true, Data := JSON.obj [], Error := "" }
    0 (by rfl) (by rfl) rfl

/-- C6 fails as stated: each of these frames is a JSON object of type `command` handled
while a handler is registered, and no response is written. First, the id of the command is
a number, so the frame does not decode into a `CommandMessage` (connected client, handler
of `main`); second, the registered handler returns nil; third, the client has lost its
transport when the frame is handled. -/
theorem C6_counterexample :
    (msgTypeOf (some [("type", JSON.str "command"), ("id", JSON.num "42"),
        ("command", JSON.str "get_stats"), ("args", JSON.obj [])]) = TypeCommand
      ∧ (connectedAgent JSON.null).onCommand.isSome = true
      ∧ (connectedAgent JSON.null).conn = some 0
      ∧ Client.handleMessage numericIdFrame none (connectedAgent JSON.null)
          = connectedAgent JSON.null)
    ∧ Client.handleMessage getStatsFrame none
          (Client.SetCommandHandler (some silentHandler) (connectedAgent JSON.null))
        = Client.SetCommandHandler (some silentHandler) (connectedAgent JSON.null)
    ∧ Client.handleMessage getStatsFrame none
          (Client.handleDisconnect (connectedAgent JSON.null))
        = Client.handleDisconnect (connectedAgent JSON.null) := by
  refine ⟨⟨by decide, rfl, rfl, ?_⟩, ?_, ?_⟩
  · rfl
  · rfl
  · rfl


theorem Client.handleMessage_ignored (s : Sys) (data : Frame) (w : GoError)
    (hign : data = Frame.invalid
      ∨ (∃ v, data = Frame.value v ∧ ∀ kvs, v ≠ JSON.obj kvs)
      ∨ (∃ kvs, data = Frame.value (JSON.obj kvs)
          ∧ (msgTypeOf (some kvs) ≠ TypeCommand ∨ s.onCommand = none))) :
    Client.handleMessage data w s = s := by
  rcases hign with rfl | ⟨v, rfl, hv⟩ | ⟨kvs, rfl, hk⟩
  · rfl
  · cases v with
    | null =>
      have h0 : msgTypeOf none = "" := rfl
      simp only [Client.handleMessage, unmarshalMap, h0]
      rfl
    | bool b => rfl
    | num lit => rfl
    | str t => rfl
    | arr xs => rfl
    | obj kvs => exact absurd rfl (hv kvs)
  · simp only [Client.handleMessage, unmarshalMap]
    by_cases h1 : msgTypeOf (some kvs) = TypeWelcome
    · simp [h1]
    · rcases hk with h2 | h2
      · simp [h1, h2]
      · simp [h1, h2]

/-- C8: a frame that is not JSON, or is JSON but not an object, or is an object whose type
is not `command` (so `welcome`, an unrecognised type, a type that is no string, or no type
at all), or is a command while no handler is registered, is ignored: handling it leaves the
whole state as it was (nothing is written, the transport and the closed flag are as
before), and the receive loop goes on with the results that follow exactly as if the frame
had not been read. -/
theorem C8_ignored_frame (s : Sys) (data : Frame) (w : GoError) (rest : List ReadResult)
    (hign : data = Frame.invalid
      ∨ (∃ v, data = Frame.value v ∧ ∀ kvs, v ≠ JSON.obj kvs)
      ∨ (∃ kvs, data = Frame.value (JSON.obj kvs)
          ∧ (msgTypeOf (some kvs) ≠ TypeCommand ∨ s.onCommand = none))) :
    Client.handleMessage data w s = s
    ∧ (Client.handleMessage data w s).trace = s.trace
    ∧ (Client.handleMessage data w s).conn = s.conn
    ∧ (Client.handleMessage data w s).closed = s.closed
    ∧ Client.readLoop (ReadResult.message data w :: rest) s = Client.readLoop rest s := by
  have h := Client.handleMessage_ignored s data w hign
  refine ⟨h, by rw [h], by rw [h], by rw [h], ?_⟩
  cases rest <;> simp only [Client.readLoop, h] <;> split <;> try rfl
  all_goals split <;> rfl

/-- C8 at a connected client that reads a frame that is not JSON, then a `welcome`, then
the command of the specification: the command is still answered. -/
theorem C8_ignored_frame_witness :
    Client.readLoop [ReadResult.message Frame.invalid none,
        ReadResult.message welcomeFrame none,
        ReadResult.message getStatsFrame none] (connectedAgent JSON.null)
      = Client.readLoop [ReadResult.message getStatsFrame none] (connectedAgent JSON.null)
    ∧ (Client.readLoop [ReadResult.message getStatsFrame none]
        (connectedAgent JSON.null)).1.trace
      = (connectedAgent JSON.null).trace
          ++ [Event.write 0
                (Value.response
                  { Type_ := "response", ID := "42", Success := true,
                    Data := JSON.null, Error := "" }) none] :=
  ⟨((C8_ignored_frame (connectedAgent JSON.null) Frame.invalid none
      [ReadResult.message welcomeFrame none, ReadResult.message getStatsFrame none]
      (Or.inl rfl)).2.2.2.2).trans
    (C8_ignored_frame (connectedAgent JSON.null) welcomeFrame none
      [ReadResult.message getStatsFrame none]
      (Or.inr (Or.inr ⟨[("type", JSON.str "welcome")], rfl, Or.inl (by decide)⟩))).2.2.2.2,
   rfl⟩

/-! ## Errors of a write and of a dial -/

/-- C9, as the code has it: when `Send` is called with a transport and the write fails,
`Send` returns the error of the write and only records the write: the fields of the client
are as before, so the transport is still held and `IsConnected` is still true, the
transport is not closed and no reconnection loop is started. -/
theorem C9_send_write_error (s : Sys) (v : Value) (e : String) (c : ConnId)
    (hconn : s.conn = some c) :
    Client.Send v (some e) s
      = (some e, { s with trace := s.trace ++ [Event.write c v (some e)] })
    ∧ (Client.Send v (some e) s).2.toClient = s.toClient
    ∧ Client.IsConnected (Client.Send v (some e) s).2 = true
    ∧ connCloses c (Client.Send v (some e) s).2.trace = connCloses c s.trace
    ∧ reconnectLoops (Client.Send v (some e) s).2.trace = reconnectLoops s.trace := by
  have h : Client.Send v (some e) s
      = (some e, { s with trace := s.trace ++ [Event.write c v (some e)] }) := by
    simp [Client.Send, Client.sendJSON, hconn]
  rw [h]
  refine ⟨rfl, rfl, ?_, ?_, ?_⟩
  · simp [Client.IsConnected, hconn]
  · simp [connCloses, List.countP_append, List.countP_cons, Event.isCloseConn]
  · simp [reconnectLoops, List.countP_append, List.countP_cons, Event.isGoReconnectLoop]

/-- C9 at a connected client whose write of a metrics message fails. -/
theorem C9_send_write_error_witness :
    Client.IsConnected
      (Client.Send (Value.metrics { Type_ := TypeMetrics, Data := JSON.null })
        (some "write: broken pipe") (connectedAgent JSON.null)).2 = true :=
  (C9_send_write_error (connectedAgent JSON.null)
    (Value.metrics { Type_ := TypeMetrics, Data := JSON.null }) "write: broken pipe" 0
    rfl).2.2.1

/-- C9 fails as stated: a connected client sends metrics and the write fails; `Send`
returns the error, and afterwards the client is still connected to transport 0, that
transport was not closed and no reconnection loop was started. -/
theorem C9_counterexample :
    (connectedAgent JSON.null).conn = some 0
    ∧ (Client.SendMetrics JSON.null (some "write: broken pipe")
        (connectedAgent JSON.null)).1 = some "write: broken pipe"
    ∧ (Client.SendMetrics JSON.null (some "write: broken pipe")
        (connectedAgent JSON.null)).2.conn = some 0
    ∧ Client.IsConnected (Client.SendMetrics JSON.null (some "write: broken pipe")
        (connectedAgent JSON.null)).2 = true
    ∧ connCloses 0 (Client.SendMetrics JSON.null (some "write: broken pipe")
        (connectedAgent JSON.null)).2.trace = 0
    ∧ reconnectLoops (Client.SendMetrics JSON.null (some "write: broken pipe")
        (connectedAgent JSON.null)).2.trace = 0 := by
  refine ⟨rfl, rfl, rfl, rfl, ?_, ?_⟩
  · decide
  · decide

/-- C10: when the client is not closed and the dial fails, `Connect` returns the error of
the dial and only records the failed dial: every field of the client (transport, closed
flag, backoff delay and attempt counter among them) is as before, no info message is
written and neither a receive loop nor a reconnection loop is started. -/
theorem C10_connect_dial_failure (s : Sys) (e : String) (w : GoError)
    (hc : s.closed = false) :
    (Client.Connect (some e) w s).1 = some e
    ∧ (Client.Connect (some e) w s).2.toClient = s.toClient
    ∧ (Client.Connect (some e) w s).2.conn = s.conn
    ∧ (Client.Connect (some e) w s).2.closed = s.closed
    ∧ (Client.Connect (some e) w s).2.reconnect = s.reconnect
    ∧ (Client.Connect (some e) w s).2.trace
        = s.trace ++ [Event.dial s.serverURL s.apiKey none]
    ∧ (Client.Connect (some e) w s).2.dialed = s.dialed := by
  rw [Client.Connect_failed s e w hc]
  exact ⟨rfl, rfl, rfl, rfl, rfl, rfl, rfl⟩

/-- C10 at a new client whose first dial is refused, and at a client in the middle of a
backoff. -/
theorem C10_connect_dial_failure_witness :
    (Client.Connect (some "connection refused") none
        (NewClient "ws://host/agent" "key" "dev" "amd64")).1 = some "connection refused"
    ∧ (Client.Connect (some "connection refused") none
        ((NewClient "ws://host/agent" "key" "dev" "amd64").run
          [Op.reconnectDelay, Op.reconnectDelay])).2.reconnect
      = { delay := 4 * Second, attempt := 2 } :=
  ⟨(C10_connect_dial_failure (NewClient "ws://host/agent" "key" "dev" "amd64")
      "connection refused" none rfl).1,
   (C10_connect_dial_failure
      ((NewClient "ws://host/agent" "key" "dev" "amd64").run
        [Op.reconnectDelay, Op.reconnectDelay])
      "connection refused" none rfl).2.2.2.2.1.trans (by decide)⟩


/-! ## A successful connect -/

theorem writesOn_append (c : ConnId) (t u : List Event) :
    writesOn c (t ++ u) = writesOn c t ++ writesOn c u := by
  induction t with
  | nil => rfl
  | cons e t ih =>
    cases e with
    | write d v w =>
      by_cases h : d = c <;> simp [writesOn, h, ih]
    | dial a b r => simpa [writesOn] using ih
    | closeConn d => simpa [writesOn] using ih
    | closeChan => simpa [writesOn] using ih
    | goReadLoop => simpa [writesOn] using ih
    | goReconnectLoop => simpa [writesOn] using ih
    | wait d => simpa [writesOn] using ih

theorem Client.handleDisconnect_state (s : Sys) :
    Client.handleDisconnect s
      = { s with
            conn := none
            trace := s.trace ++
              (match s.conn with
               | some c => [Event.closeConn c, Event.goReconnectLoop]
               | none => [Event.goReconnectLoop]) } := by
  obtain ⟨⟨serverURL, apiKey, version, arch, conn, closed, closeCh, reconnect, onCommand⟩,
    trace, dialed, panicked⟩ := s
  cases conn <;> simp [Client.handleDisconnect]

theorem Client.Close_shape (s : Sys) :
    ∃ t, (Client.Close s).trace = s.trace ++ t
      ∧ (∀ c, writesOn c t = [])
      ∧ readLoops t = 0
      ∧ (Client.Close s).serverURL = s.serverURL
      ∧ (Client.Close s).apiKey = s.apiKey
      ∧ (Client.Close s).version = s.version
      ∧ (Client.Close s).arch = s.arch
      ∧ (Client.Close s).dialed = s.dialed := by
  by_cases hc : s.closed = true
  · rw [Client.Close_closed s hc]
    exact ⟨[], by simp, fun _ => rfl, rfl, rfl, rfl, rfl, rfl, rfl⟩
  · have hcf : s.closed = false := by simpa using hc
    by_cases hch : s.closeCh = true
    · refine ⟨[], ?_, fun _ => rfl, rfl, ?_, ?_, ?_, ?_, ?_⟩ <;>
        simp [Client.Close, hcf, hch]
    · have hchf : s.closeCh = false := by simpa using hch
      rw [Client.Close_open s hcf hchf]
      refine ⟨_, rfl, ?_, ?_, rfl, rfl, rfl, rfl, rfl⟩
      · intro c
        cases s.conn <;> rfl
      · cases s.conn <;> rfl

theorem Sys.Grows.same (s : Sys) : s.Grows s :=
  ⟨[], by simp, fun _ _ _ => rfl, rfl, rfl, rfl, rfl, Nat.le_refl _⟩

theorem Sys.Grows.after_Send (s : Sys) (v : Value) (w : GoError) :
    s.Grows (Client.Send v w s).2 := by
  rcases Client.Send_state v w s with h | ⟨c0, hc0, h⟩
  · rw [h]
    exact Sys.Grows.same s
  · rw [h]
    refine ⟨_, rfl, ?_, rfl, rfl, rfl, rfl, Nat.le_refl _⟩
    intro c _ hne
    have : c0 ≠ c := fun hcc => hne (hcc ▸ hc0)
    simp [writesOn, this]

theorem Sys.Grows.after_Connect (s : Sys) (dial w : GoError) :
    s.Grows (Client.Connect dial w s).2 := by
  by_cases hc : s.closed = true
  · rw [Client.Connect_closed s dial w hc]
    exact Sys.Grows.same s
  · have hcf : s.closed = false := by simpa using hc
    cases dial with
    | some e =>
      rw [Client.Connect_failed s e w hcf]
      exact ⟨_, rfl, fun _ _ _ => rfl, rfl, rfl, rfl, rfl, Nat.le_refl _⟩
    | none =>
      rw [Client.Connect_dialled s w hcf]
      refine ⟨_, rfl, ?_, rfl, rfl, rfl, rfl, Nat.le_succ _⟩
      intro c hd _
      have : s.dialed ≠ c := by
        intro hcc
        subst hcc
        exact absurd hd (Nat.not_succ_le_self _)
      simp [writesOn, this]

/-- What one call does to the trace and to the fields no method assigns. -/
theorem Sys.Grows.step_grows (s : Sys) (op : Op) : s.Grows (s.step op) := by
  cases op with
  | connect dial infoWrite => exact Sys.Grows.after_Connect s dial infoWrite
  | send v w => exact Sys.Grows.after_Send s v w
  | sendMetrics data w => exact Sys.Grows.after_Send s _ w
  | isConnected => exact Sys.Grows.same s
  | close =>
    obtain ⟨t, h1, h2, _, h3, h4, h5, h6, h7⟩ := Client.Close_shape s
    exact ⟨t, h1, fun c _ _ => h2 c, h3, h4, h5, h6, Nat.le_of_eq h7.symm⟩
  | setCommandHandler handler =>
    exact ⟨[], by simp [Sys.step, Client.SetCommandHandler], fun _ _ _ => rfl, rfl, rfl, rfl,
      rfl, Nat.le_refl _⟩
  | handleMessage data w =>
    show s.Grows (Client.handleMessage data w s)
    rcases Client.handleMessage_state data w s with h | ⟨resp, h⟩
    · rw [h]
      exact Sys.Grows.same s
    · rw [h]
      exact Sys.Grows.after_Send s _ w
  | handleDisconnect =>
    show s.Grows (Client.handleDisconnect s)
    rw [Client.handleDisconnect_state]
    refine ⟨_, rfl, ?_, rfl, rfl, rfl, rfl, Nat.le_refl _⟩
    intro c _ _
    cases s.conn <;> rfl
  | reconnectDelay =>
    exact ⟨_, rfl, fun _ _ _ => rfl, rfl, rfl, rfl, rfl, Nat.le_refl _⟩


theorem Sys.WritesDialed.step_writes (s : Sys) (hi : s.Inv) (hw : s.WritesDialed) (op : Op) :
    (s.step op).WritesDialed := by
  obtain ⟨t, ht, hfresh, _, _, _, _, hd⟩ := Sys.Grows.step_grows s op
  intro c hc
  have hne : s.conn ≠ some c := by
    intro hcn
    exact absurd (Nat.le_trans hd hc) (Nat.not_le.mpr (hi.connFresh c hcn).1)
  rw [ht, writesOn_append, hw c (Nat.le_trans hd hc), hfresh c hc hne]
  rfl

theorem Sys.WritesDialed.run_writes (ops : List Op) (s : Sys) (hi : s.Inv)
    (hw : s.WritesDialed) : (s.run ops).WritesDialed := by
  induction ops generalizing s with
  | nil => exact hw
  | cons op ops ih =>
    exact ih _ (Sys.Inv.step_preserved s hi op) (Sys.WritesDialed.step_writes s hi hw op)

theorem Reachable.writesDialed (s : Sys) (h : Reachable s) : s.WritesDialed := by
  obtain ⟨serverURL, apiKey, version, arch, ops, rfl⟩ := h
  exact Sys.WritesDialed.run_writes ops _ (Sys.Inv.NewClient serverURL apiKey version arch)
    (fun _ _ => rfl)

theorem Sys.run_static (ops : List Op) (s : Sys) :
    (∃ t, (s.run ops).trace = s.trace ++ t)
    ∧ (s.run ops).serverURL = s.serverURL
    ∧ (s.run ops).apiKey = s.apiKey
    ∧ (s.run ops).version = s.version
    ∧ (s.run ops).arch = s.arch := by
  induction ops generalizing s with
  | nil => exact ⟨⟨[], by simp [Sys.run]⟩, rfl, rfl, rfl, rfl⟩
  | cons op ops ih =>
    obtain ⟨t, ht, _, h1, h2, h3, h4, _⟩ := Sys.Grows.step_grows s op
    obtain ⟨⟨u, hu⟩, g1, g2, g3, g4⟩ := ih (s.step op)
    refine ⟨⟨t ++ u, ?_⟩, g1.trans h1, g2.trans h2, g3.trans h3, g4.trans h4⟩
    show ((s.step op).run ops).trace = s.trace ++ (t ++ u)
    rw [hu, ht, List.append_assoc]

/-- C11: let a client built by `NewClient` with `version` and `arch` be in any state it can
reach, not closed. A `Connect` whose dial succeeds returns nil whatever the write of the
info message answers, holds the new transport (`IsConnected` is true) and has the backoff
state of a new handler. It dials, writes the info message `info`, `version`, `arch` on the
new transport and starts one receive loop, in that order and nothing else; no write was
made on the new transport before, so the info message is the first write on it, and it
stays the first through every later sequence of calls. -/
theorem C11_connect_success (serverURL apiKey version arch : String) (ops later : List Op)
    (w : GoError) (s : Sys) (hs : s = (NewClient serverURL apiKey version arch).run ops)
    (hc : s.closed = false) :
    (Client.Connect none w s).1 = none
    ∧ (Client.Connect none w s).2.conn = some s.dialed
    ∧ Client.IsConnected (Client.Connect none w s).2 = true
    ∧ (Client.Connect none w s).2.reconnect = NewReconnect
    ∧ (Client.Connect none w s).2.reconnect.Attempt = 0
    ∧ (Client.Connect none w s).2.trace
        = s.trace ++ [Event.dial serverURL apiKey (some s.dialed),
            Event.write s.dialed
              (Value.info { Type_ := "info", Version := version, Arch := arch }) w,
            Event.goReadLoop]
    ∧ writesOn s.dialed s.trace = []
    ∧ writesOn s.dialed (Client.Connect none w s).2.trace
        = [Value.info { Type_ := "info", Version := version, Arch := arch }]
    ∧ (∃ rest, writesOn s.dialed ((Client.Connect none w s).2.run later).trace
        = Value.info { Type_ := "info", Version := version, Arch := arch } :: rest)
    ∧ readLoops (Client.Connect none w s).2.trace = readLoops s.trace + 1 := by
  have hreach : Reachable s := ⟨serverURL, apiKey, version, arch, ops, hs⟩
  have hfresh := Reachable.writesDialed s hreach s.dialed (Nat.le_refl _)
  obtain ⟨_, hurl, hkey, hver, harch⟩ :=
    Sys.run_static ops (NewClient serverURL apiKey version arch)
  rw [← hs] at hurl hkey hver harch
  have hurl2 : s.serverURL = serverURL := hurl
  have hkey2 : s.apiKey = apiKey := hkey
  have hver2 : s.version = version := hver
  have harch2 : s.arch = arch := harch
  have hw : writesOn s.dialed
      (s.trace ++ [Event.dial serverURL apiKey (some s.dialed),
        Event.write s.dialed
          (Value.info { Type_ := "info", Version := version, Arch := arch }) w,
        Event.goReadLoop])
      = [Value.info { Type_ := "info", Version := version, Arch := arch }] := by
    rw [writesOn_append, hfresh]
    simp [writesOn]
  have htrace : (Client.Connect none w s).2.trace
      = s.trace ++ [Event.dial serverURL apiKey (some s.dialed),
          Event.write s.dialed
            (Value.info { Type_ := "info", Version := version, Arch := arch }) w,
          Event.goReadLoop] := by
    rw [Client.Connect_dialled s w hc, hurl2, hkey2, hver2, harch2]
    rfl
  refine ⟨?_, ?_, ?_, ?_, ?_, htrace, hfresh, ?_, ?_, ?_⟩
  · rw [Client.Connect_dialled s w hc]
  · rw [Client.Connect_dialled s w hc]
  · rw [Client.Connect_dialled s w hc]
    rfl
  · rw [Client.Connect_dialled s w hc]
    rfl
  · rw [Client.Connect_dialled s w hc]
    rfl
  · rw [htrace, hw]
  · obtain ⟨⟨u, hu⟩, _⟩ := Sys.run_static later (Client.Connect none w s).2
    refine ⟨writesOn s.dialed u, ?_⟩
    rw [hu, writesOn_append, htrace, hw]
    rfl
  · rw [htrace]
    simp [readLoops, List.countP_append, List.countP_cons, Event.isGoReadLoop]

/-- C11 at a reconnect: a client of version `1.2.3` on `arm64` lost its first transport;
the next `Connect` dials transport 1, the write of the info message fails, and `Connect`
still returns nil with the client connected. -/
theorem C11_connect_success_witness :
    (Client.Connect none (some "write: broken pipe")
        ((NewClient "ws://host/agent" "key" "1.2.3" "arm64").run
          [Op.connect none none, Op.handleDisconnect, Op.reconnectDelay])).1 = none
    ∧ Client.IsConnected (Client.Connect none (some "write: broken pipe")
        ((NewClient "ws://host/agent" "key" "1.2.3" "arm64").run
          [Op.connect none none, Op.handleDisconnect, Op.reconnectDelay])).2 = true
    ∧ writesOn 1 (Client.Connect none (some "write: broken pipe")
        ((NewClient "ws://host/agent" "key" "1.2.3" "arm64").run
          [Op.connect none none, Op.handleDisconnect, Op.reconnectDelay])).2.trace
      = [Value.info { Type_ := "info", Version := "1.2.3", Arch := "arm64" }] :=
  have h := C11_connect_success "ws://host/agent" "key" "1.2.3" "arm64"
    [Op.connect none none, Op.handleDisconnect, Op.reconnectDelay] []
    (some "write: broken pipe") _ rfl rfl
  ⟨h.1, h.2.2.1, h.2.2.2.2.2.2.2.1⟩


/-! ## A read error in the receive loop -/

theorem Client.readLoopAmid_alone (script : List ReadResult) (s : Sys) :
    Client.readLoopAmid (script.map (fun r => ([], r))) s = Client.readLoop script s := by
  induction script generalizing s with
  | nil => rfl
  | cons r script ih =>
    cases r with
    | failed e => simp [Client.readLoopAmid, Client.readLoop, Sys.run]
    | message data w =>
      simp only [List.map_cons, Client.readLoopAmid, Client.readLoop, Sys.run, List.foldl_nil]
      rw [← ih]

theorem Client.reconnectLoopAmid_alone (script : List (GoError × GoError)) (s : Sys) :
    Client.reconnectLoopAmid (script.map (fun a => ([], a))) s
      = Client.reconnectLoop script s := by
  induction script generalizing s with
  | nil => rfl
  | cons a script ih =>
    simp only [List.map_cons, Client.reconnectLoopAmid, Client.reconnectLoop, Sys.run,
      List.foldl_nil]
    split
    · rfl
    · split
      · rfl
      · split
        · exact ih _
        · rfl

theorem Client.reconnectLoopAmid_shutdown (script : List (List Op × GoError × GoError))
    (s : Sys) (h : s.closeCh = true) :
    Client.reconnectLoopAmid script s = (s, LoopStatus.exited) := by
  cases script <;> simp [Client.reconnectLoopAmid, h]


/-- C13: a receive loop is reading from transport `c` (the channel is open) while other
goroutines make the calls `during`, and the read fails. When the client is not closed then
and still holds `c`, the loop closes `c`, clears the handle (`IsConnected` is false),
starts exactly one reconnection loop and ends. When the client is closed then, the loop
ends and changes nothing: no reconnection loop is started. A reconnection loop that finds
the channel closed, at the top of an iteration or while it waits on the timer, ends
without a call of `Connect`: the state is as the other goroutines left it. -/
theorem C13_read_error (s : Sys) (during : List Op) (e : String) (c : ConnId)
    (rest : List (List Op × ReadResult)) (hch : s.closeCh = false)
    (hconn : s.conn = some c) :
    ((s.run during).closed = false → (s.run during).conn = some c →
      Client.readLoopAmid ((during, ReadResult.failed e) :: rest) s
        = ({ s.run during with
              conn := none
              trace := (s.run during).trace
                ++ [Event.closeConn c, Event.goReconnectLoop] }, LoopStatus.exited)
      ∧ Client.IsConnected
          (Client.readLoopAmid ((during, ReadResult.failed e) :: rest) s).1 = false
      ∧ connCloses c (Client.readLoopAmid ((during, ReadResult.failed e) :: rest) s).1.trace
          = connCloses c (s.run during).trace + 1
      ∧ reconnectLoops
            (Client.readLoopAmid ((during, ReadResult.failed e) :: rest) s).1.trace
          = reconnectLoops (s.run during).trace + 1)
    ∧ ((s.run during).closed = true →
        Client.readLoopAmid ((during, ReadResult.failed e) :: rest) s
          = (s.run during, LoopStatus.exited))
    ∧ (s.closed = false →
        Client.readLoop (ReadResult.failed e :: rest.map (fun a => a.2)) s
          = (Client.handleDisconnect s, LoopStatus.exited))
    ∧ (∀ (script : List (List Op × GoError × GoError)) (s0 : Sys), s0.closeCh = true →
        Client.reconnectLoopAmid script s0 = (s0, LoopStatus.exited))
    ∧ (∀ (others : List Op) (dial w : GoError) (script : List (List Op × GoError × GoError))
        (s0 : Sys), s0.closeCh = false →
        ((Client.reconnectDelay s0).2.run others).closeCh = true →
        Client.reconnectLoopAmid ((others, dial, w) :: script) s0
          = ((Client.reconnectDelay s0).2.run others, LoopStatus.exited)) := by
  refine ⟨?_, ?_, ?_, ?_, ?_⟩
  · intro hc hcn
    have hres : Client.readLoopAmid ((during, ReadResult.failed e) :: rest) s
        = ({ s.run during with
              conn := none
              trace := (s.run during).trace
                ++ [Event.closeConn c, Event.goReconnectLoop] }, LoopStatus.exited) := by
      have hd : Client.handleDisconnect (s.run during)
          = { s.run during with
                conn := none
                trace := (s.run during).trace
                  ++ [Event.closeConn c, Event.goReconnectLoop] } := by
        rw [Client.handleDisconnect_state, hcn]
      simp [Client.readLoopAmid, hch, hconn, hc, hd]
    rw [hres]
    refine ⟨rfl, rfl, ?_, ?_⟩
    · simp [connCloses, List.countP_append, List.countP_cons, Event.isCloseConn]
    · simp [reconnectLoops, List.countP_append, List.countP_cons, Event.isGoReconnectLoop]
  · intro hc
    simp [Client.readLoopAmid, hch, hconn, hc]
  · intro hc
    simp [Client.readLoop, hch, hconn, hc]
  · intro script s0 h
    exact Client.reconnectLoopAmid_shutdown script s0 h
  · intro others dial w script s0 h0 h1
    simp only [Client.reconnectLoopAmid, h0]
    simp [h1]

/-- C13 at a connected client: the read fails while the client is open; and the read fails
after `Close` was called during the read. -/
theorem C13_read_error_witness :
    Client.readLoopAmid [([], ReadResult.failed "EOF")] (connectedAgent JSON.null)
      = ({ connectedAgent JSON.null with
            conn := none
            trace := (connectedAgent JSON.null).trace
              ++ [Event.closeConn 0, Event.goReconnectLoop] }, LoopStatus.exited)
    ∧ Client.readLoopAmid [([Op.close], ReadResult.failed "use of closed connection")]
        (connectedAgent JSON.null)
      = (Client.Close (connectedAgent JSON.null), LoopStatus.exited) :=
  have h := C13_read_error (connectedAgent JSON.null) [] "EOF" 0 [] rfl rfl
  have h2 := C13_read_error (connectedAgent JSON.null) [Op.close]
    "use of closed connection" 0 [] rfl rfl
  ⟨(h.1 rfl rfl).1, h2.2.1 rfl⟩


/-! ## Live transports -/

theorem connCloses_append (c : ConnId) (t u : List Event) :
    connCloses c (t ++ u) = connCloses c t + connCloses c u := by
  simp [connCloses, List.countP_append]

theorem Sys.LiveIsHeld.kept_by_Send (s : Sys) (h : s.LiveIsHeld) (v : Value) (w : GoError) :
    (Client.Send v w s).2.LiveIsHeld := by
  rcases Client.Send_state v w s with h1 | ⟨c0, _, h1⟩
  · rw [h1]
    exact h
  · rw [h1]
    intro c hc hz
    have hz2 : connCloses c (s.trace ++ [Event.write c0 v w]) = 0 := hz
    rw [connCloses_append] at hz2
    exact h c hc (by omega)

theorem Sys.LiveIsHeld.dropHandle (s : Sys) (h : s.LiveIsHeld)
    (pre post : List Event) (hpre : ∀ c, connCloses c pre = 0)
    (hpost : ∀ c, connCloses c post = 0) (s2 : Sys) (hd : s2.dialed = s.dialed)
    (ht : s2.trace = s.trace ++ pre ++
      (match s.conn with
       | some c => [Event.closeConn c]
       | none => []) ++ post) :
    ∀ c, c < s2.dialed → connCloses c s2.trace = 0 → False := by
  intro c hc hz
  rw [ht, connCloses_append, connCloses_append, connCloses_append, hpre, hpost] at hz
  rw [hd] at hc
  have h0 : connCloses c s.trace = 0 := by omega
  have hheld := h c hc h0
  rw [hheld] at hz
  simp [connCloses, Event.isCloseConn] at hz


theorem Sys.LiveIsHeld.kept_by_handleDisconnect (s : Sys) (h : s.LiveIsHeld) :
    (Client.handleDisconnect s).LiveIsHeld := by
  intro c hc hz
  refine absurd (Sys.LiveIsHeld.dropHandle s h [] [Event.goReconnectLoop] (fun _ => rfl)
    (fun _ => rfl) (Client.handleDisconnect s) ?_ ?_ c hc hz) id
  · rw [Client.handleDisconnect_state]
  · rw [Client.handleDisconnect_state]
    cases s.conn <;> simp

theorem Sys.LiveIsHeld.kept_by_Close (s : Sys) (hi : s.Inv) (h : s.LiveIsHeld) :
    (Client.Close s).LiveIsHeld := by
  by_cases hc : s.closed = true
  · rw [Client.Close_closed s hc]
    exact h
  · have hcf : s.closed = false := by simpa using hc
    have hch : s.closeCh = false := by rw [hi.chan, hcf]
    intro c hlt hz
    refine absurd (Sys.LiveIsHeld.dropHandle s h [Event.closeChan] [] (fun _ => rfl)
      (fun _ => rfl) (Client.Close s) ?_ ?_ c hlt hz) id
    · rw [Client.Close_open s hcf hch]
    · rw [Client.Close_open s hcf hch]
      cases s.conn <;> simp

theorem Sys.LiveIsHeld.kept_by_Connect (s : Sys) (h : s.LiveIsHeld) (dial w : GoError)
    (hfree : dial = none → s.conn = none) : (Client.Connect dial w s).2.LiveIsHeld := by
  by_cases hc : s.closed = true
  · rw [Client.Connect_closed s dial w hc]
    exact h
  · have hcf : s.closed = false := by simpa using hc
    cases dial with
    | some e =>
      rw [Client.Connect_failed s e w hcf]
      intro c hlt hz
      have hz2 : connCloses c (s.trace ++ [Event.dial s.serverURL s.apiKey none]) = 0 := hz
      rw [connCloses_append] at hz2
      exact h c hlt (by omega)
    | none =>
      rw [Client.Connect_dialled s w hcf]
      intro c hlt hz
      have hlt2 : c < s.dialed + 1 := hlt
      have hz2 : connCloses c (s.trace ++ [Event.dial s.serverURL s.apiKey (some s.dialed),
          Event.write s.dialed
            (Value.info { Type_ := TypeInfo, Version := s.version, Arch := s.arch }) w,
          Event.goReadLoop]) = 0 := hz
      rw [connCloses_append] at hz2
      by_cases hcd : c = s.dialed
      · subst hcd
        rfl
      · have hold := h c (by omega) (by omega)
        rw [hfree rfl] at hold
        exact absurd hold (by simp)

theorem Sys.LiveIsHeld.step_held (s : Sys) (hi : s.Inv) (h : s.LiveIsHeld) (op : Op)
    (hfree : match op with
      | .connect none _ => s.conn = none
      | _ => True) : (s.step op).LiveIsHeld := by
  cases op with
  | connect dial infoWrite =>
    refine Sys.LiveIsHeld.kept_by_Connect s h dial infoWrite ?_
    intro hd
    subst hd
    exact hfree
  | send v w => exact Sys.LiveIsHeld.kept_by_Send s h v w
  | sendMetrics data w => exact Sys.LiveIsHeld.kept_by_Send s h _ w
  | isConnected => exact h
  | close => exact Sys.LiveIsHeld.kept_by_Close s hi h
  | setCommandHandler handler => exact h
  | handleMessage data w =>
    show (Client.handleMessage data w s).LiveIsHeld
    rcases Client.handleMessage_state data w s with h1 | ⟨resp, h1⟩
    · rw [h1]
      exact h
    · rw [h1]
      exact Sys.LiveIsHeld.kept_by_Send s h _ w
  | handleDisconnect => exact Sys.LiveIsHeld.kept_by_handleDisconnect s h
  | reconnectDelay =>
    intro c hlt hz
    have hz2 : connCloses c (s.trace ++ [Event.wait s.reconnect.NextDelay.1]) = 0 := hz
    rw [connCloses_append] at hz2
    exact h c hlt (by omega)

theorem Sys.LiveIsHeld.run_held (ops : List Op) (s : Sys) (hi : s.Inv) (h : s.LiveIsHeld)
    (hfree : s.ConnectsWhenFree ops) : (s.run ops).LiveIsHeld := by
  induction ops generalizing s with
  | nil => exact h
  | cons op ops ih =>
    exact ih _ (Sys.Inv.step_preserved s hi op) (Sys.LiveIsHeld.step_held s hi h op hfree.1)
      hfree.2


/-- When every successful `Connect` is made while no transport is held, a client has at
most one transport that is dialled and not closed: the one it holds. -/
theorem liveTransports_when_free (serverURL apiKey version arch : String) (ops : List Op)
    (hfree : (NewClient serverURL apiKey version arch).ConnectsWhenFree ops) :
    (∀ c ∈ liveTransports ((NewClient serverURL apiKey version arch).run ops),
        ((NewClient serverURL apiKey version arch).run ops).conn = some c)
    ∧ (liveTransports ((NewClient serverURL apiKey version arch).run ops)).length ≤ 1 := by
  have hheld := Sys.LiveIsHeld.run_held ops _
    (Sys.Inv.NewClient serverURL apiKey version arch)
    (fun c hc _ => absurd hc (Nat.not_lt_zero c)) hfree
  have hmem : ∀ c ∈ liveTransports ((NewClient serverURL apiKey version arch).run ops),
      ((NewClient serverURL apiKey version arch).run ops).conn = some c := by
    intro c hc
    simp only [liveTransports, List.mem_filter, List.mem_range, beq_iff_eq] at hc
    exact hheld c hc.1 hc.2
  refine ⟨hmem, ?_⟩
  have hnd : (liveTransports ((NewClient serverURL apiKey version arch).run ops)).Nodup :=
    List.Nodup.filter _ (List.nodup_range _)
  generalize liveTransports ((NewClient serverURL apiKey version arch).run ops) = l
    at hmem hnd
  match l, hmem, hnd with
  | [], _, _ => exact Nat.zero_le _
  | [_], _, _ => exact Nat.le_refl _
  | x :: y :: l, hmem, hnd =>
    have hx := hmem x (List.mem_cons_self _ _)
    have hy := hmem y (List.mem_cons_of_mem _ (List.mem_cons_self _ _))
    rw [hx] at hy
    have hxy : x = y := Option.some.inj hy
    subst hxy
    exact absurd (List.mem_cons_self _ _) (List.nodup_cons.mp hnd).1

/-- C12 fails on the code: `Connect` is called twice on a new client and both dials
succeed. The first call holds transport 0; the second holds transport 1 and transport 0
was never closed, so two transports are dialled and not closed. -/
theorem C12_double_connect :
    ((NewClient "ws://host/agent" "key" "dev" "amd64").run [Op.connect none none]).conn
      = some 0
    ∧ connectedTwice.conn = some 1
    ∧ connCloses 0 connectedTwice.trace = 0
    ∧ liveTransports connectedTwice = [0, 1]
    ∧ (liveTransports connectedTwice).length = 2 := by
  refine ⟨rfl, rfl, ?_, ?_, ?_⟩ <;> decide


/-! ## The order of the two mutexes -/

theorem lockedUnder_append (outer inner : Mutex) (held : List Mutex) (t u : List LockEvent) :
    lockedUnder outer inner held (t ++ u)
      = (lockedUnder outer inner held t || lockedUnder outer inner (heldAfter held t) u) := by
  induction t generalizing held with
  | nil => simp [lockedUnder, heldAfter]
  | cons e t ih =>
    cases e with
    | lock m => simp [lockedUnder, heldAfter, ih, Bool.or_assoc]
    | unlock m => simp [lockedUnder, heldAfter, ih]

theorem heldAfter_append (held : List Mutex) (t u : List LockEvent) :
    heldAfter held (t ++ u) = heldAfter (heldAfter held t) u := by
  induction t generalizing held with
  | nil => rfl
  | cons e t ih =>
    cases e with
    | lock m => simp [heldAfter, ih]
    | unlock m => simp [heldAfter, ih]

theorem Locks.handleMessage_cases (data : Frame) (s : Sys) :
    Locks.handleMessage data s = [] ∨ Locks.handleMessage data s = Locks.Send := by
  unfold Locks.handleMessage
  cases unmarshalMap data with
  | error e => exact Or.inl rfl
  | ok msg =>
    by_cases h1 : msgTypeOf msg = TypeWelcome
    · simp [h1]
    · by_cases h2 : msgTypeOf msg = TypeCommand
      · cases s.onCommand with
        | none => simp [h1, h2]
        | some onCommand =>
          cases unmarshalCommand data with
          | error e => simp [h1, h2]
          | ok cmd =>
            cases hr : onCommand cmd with
            | none => simp [h1, h2, hr]
            | some resp => simp [h2, hr, TypeCommand_ne_TypeWelcome]
      · simp [h1, h2]

theorem Locks.handleMessage_order (data : Frame) (s : Sys) (outer inner : Mutex)
    (h : outer ≠ inner) :
    lockedUnder outer inner [] (Locks.handleMessage data s) = false
    ∧ heldAfter [] (Locks.handleMessage data s) = [] := by
  rcases Locks.handleMessage_cases data s with h1 | h1 <;> rw [h1]
  · exact ⟨rfl, rfl⟩
  · cases outer <;> cases inner <;> first | exact absurd rfl h | exact ⟨rfl, rfl⟩

theorem Locks.Connect_order (dial : GoError) (s : Sys) :
    (lockedUnder Mutex.client Mutex.backoff [] (Locks.Connect dial s) = true
      ↔ (s.closed = false ∧ dial = none))
    ∧ lockedUnder Mutex.backoff Mutex.client [] (Locks.Connect dial s) = false
    ∧ heldAfter [] (Locks.Connect dial s) = [] := by
  unfold Locks.Connect
  by_cases hc : s.closed = true
  · simp [hc, lockedUnder, heldAfter]
  · have hcf : s.closed = false := by simpa using hc
    cases dial with
    | some e => simp [hcf, lockedUnder, heldAfter]
    | none =>
      simp only [hcf]
      refine ⟨?_, ?_, ?_⟩ <;> decide


theorem Locks.ofOp_order (s : Sys) (op : Op) :
    (lockedUnder Mutex.client Mutex.backoff [] (Locks.ofOp s op) = true
      ↔ (s.closed = false ∧ ∃ w, op = Op.connect none w))
    ∧ lockedUnder Mutex.backoff Mutex.client [] (Locks.ofOp s op) = false
    ∧ heldAfter [] (Locks.ofOp s op) = [] := by
  cases op with
  | connect dial infoWrite =>
    obtain ⟨h1, h2, h3⟩ := Locks.Connect_order dial s
    refine ⟨?_, h2, h3⟩
    show lockedUnder Mutex.client Mutex.backoff [] (Locks.Connect dial s) = true ↔ _
    rw [h1]
    constructor
    · rintro ⟨hc, hd⟩
      exact ⟨hc, infoWrite, by rw [hd]⟩
    · rintro ⟨hc, w, hw⟩
      exact ⟨hc, (Op.connect.inj hw).1⟩
  | send v w => exact ⟨by simp [Locks.ofOp, Locks.Send, Locks.sendJSON, lockedUnder], rfl, rfl⟩
  | sendMetrics data w =>
    exact ⟨by simp [Locks.ofOp, Locks.SendMetrics, Locks.Send, Locks.sendJSON, lockedUnder],
      rfl, rfl⟩
  | isConnected => exact ⟨by simp [Locks.ofOp, Locks.IsConnected, lockedUnder], rfl, rfl⟩
  | close => exact ⟨by simp [Locks.ofOp, Locks.Close, lockedUnder], rfl, rfl⟩
  | setCommandHandler handler =>
    exact ⟨by simp [Locks.ofOp, Locks.SetCommandHandler, lockedUnder], rfl, rfl⟩
  | handleMessage data w =>
    have h1 := Locks.handleMessage_order data s Mutex.client Mutex.backoff (by decide)
    have h2 := Locks.handleMessage_order data s Mutex.backoff Mutex.client (by decide)
    refine ⟨?_, h2.1, h2.2⟩
    show lockedUnder Mutex.client Mutex.backoff [] (Locks.handleMessage data s) = true ↔ _
    rw [h1.1]
    simp
  | handleDisconnect =>
    exact ⟨by simp [Locks.ofOp, Locks.handleDisconnect, lockedUnder], rfl, rfl⟩
  | reconnectDelay => exact ⟨by simp [Locks.ofOp, Locks.NextDelay, lockedUnder], rfl, rfl⟩

theorem Locks.readLoop_nil (s : Sys) :
    Locks.readLoop [] s
      = if s.closeCh then [] else [LockEvent.lock Mutex.client, LockEvent.unlock Mutex.client] :=
  rfl

theorem Locks.readLoop_cons (r : ReadResult) (rest : List ReadResult) (s : Sys) :
    Locks.readLoop (r :: rest) s
      = if s.closeCh then []
        else
          [LockEvent.lock Mutex.client, LockEvent.unlock Mutex.client]
            ++ (match s.conn with
                | none => []
                | some _ =>
                  match r with
                  | .failed _ => if !s.closed then Locks.handleDisconnect else []
                  | .message data w =>
                    Locks.handleMessage data s
                      ++ Locks.readLoop rest (Client.handleMessage data w s)) :=
  rfl

theorem Locks.readLoop_order (script : List ReadResult) (s : Sys) (outer inner : Mutex)
    (h : outer ≠ inner) :
    lockedUnder outer inner [] (Locks.readLoop script s) = false
    ∧ heldAfter [] (Locks.readLoop script s) = [] := by
  have hpair : lockedUnder outer inner [] [LockEvent.lock Mutex.client,
        LockEvent.unlock Mutex.client] = false
      ∧ heldAfter [] [LockEvent.lock Mutex.client, LockEvent.unlock Mutex.client] = [] := by
    cases outer <;> cases inner <;> first | exact absurd rfl h | exact ⟨rfl, rfl⟩
  induction script generalizing s with
  | nil =>
    rw [Locks.readLoop_nil]
    split
    · exact ⟨rfl, rfl⟩
    · exact hpair
  | cons r script ih =>
    rw [Locks.readLoop_cons]
    split
    · exact ⟨rfl, rfl⟩
    · rw [lockedUnder_append, heldAfter_append, hpair.1, hpair.2, Bool.false_or]
      cases s.conn with
      | none => exact ⟨rfl, rfl⟩
      | some c =>
        cases r with
        | failed e =>
          show lockedUnder outer inner [] (if (!s.closed) = true then Locks.handleDisconnect
              else []) = false
            ∧ heldAfter [] (if (!s.closed) = true then Locks.handleDisconnect else []) = []
          split
          · exact hpair
          · exact ⟨rfl, rfl⟩
        | message data w =>
          have hm := Locks.handleMessage_order data s outer inner h
          have hrest := ih (Client.handleMessage data w s)
          show lockedUnder outer inner []
              (Locks.handleMessage data s
                ++ Locks.readLoop script (Client.handleMessage data w s)) = false
            ∧ heldAfter []
              (Locks.handleMessage data s
                ++ Locks.readLoop script (Client.handleMessage data w s)) = []
          rw [lockedUnder_append, heldAfter_append, hm.1, hm.2, hrest.1, hrest.2]
          exact ⟨rfl, rfl⟩


theorem Locks.reconnectLoop_nil (s : Sys) : Locks.reconnectLoop [] s = [] :=
  rfl

theorem Locks.reconnectLoop_cons (a : GoError × GoError) (rest : List (GoError × GoError))
    (s : Sys) :
    Locks.reconnectLoop (a :: rest) s
      = if s.closeCh then []
        else
          Locks.NextDelay
            ++ (if (Client.reconnectDelay s).2.closeCh then []
                else
                  Locks.Connect a.1 (Client.reconnectDelay s).2
                    ++ (match (Client.Connect a.1 a.2 (Client.reconnectDelay s).2).1 with
                        | some _ =>
                          Locks.reconnectLoop rest
                            (Client.Connect a.1 a.2 (Client.reconnectDelay s).2).2
                        | none => [])) :=
  rfl

theorem Locks.reconnectLoop_order (script : List (GoError × GoError)) (s : Sys) :
    (lockedUnder Mutex.client Mutex.backoff [] (Locks.reconnectLoop script s) = true
      ↔ s.dialed < (Client.reconnectLoop script s).1.dialed)
    ∧ lockedUnder Mutex.backoff Mutex.client [] (Locks.reconnectLoop script s) = false
    ∧ heldAfter [] (Locks.reconnectLoop script s) = [] := by
  induction script generalizing s with
  | nil =>
    rw [Locks.reconnectLoop_nil]
    refine ⟨?_, rfl, rfl⟩
    have : (Client.reconnectLoop [] s).1 = s := by
      simp only [Client.reconnectLoop]
      split <;> rfl
    rw [this]
    simp [lockedUnder]
  | cons a rest ih =>
    obtain ⟨d, w⟩ := a
    rw [Locks.reconnectLoop_cons]
    by_cases hch : s.closeCh = true
    · have : (Client.reconnectLoop ((d, w) :: rest) s).1 = s := by
        simp [Client.reconnectLoop, hch]
      rw [this]
      simp [hch, lockedUnder, heldAfter]
    · have hchf : s.closeCh = false := by simpa using hch
      have hch1 : (Client.reconnectDelay s).2.closeCh = false := hchf
      have hd1 : (Client.reconnectDelay s).2.dialed = s.dialed := rfl
      obtain ⟨c1, c2, c3⟩ := Locks.Connect_order d (Client.reconnectDelay s).2
      simp only [hchf, hch1, Bool.false_eq_true, if_false]
      have hnd1 : lockedUnder Mutex.client Mutex.backoff [] Locks.NextDelay = false := rfl
      have hnd2 : lockedUnder Mutex.backoff Mutex.client [] Locks.NextDelay = false := rfl
      have hnd3 : heldAfter [] Locks.NextDelay = [] := rfl
      simp only [lockedUnder_append, heldAfter_append, hnd1, hnd2, hnd3, c2, c3,
        Bool.false_or]
      by_cases hc : (Client.reconnectDelay s).2.closed = true
      · have hcon := Client.Connect_closed (Client.reconnectDelay s).2 d w hc
        have hloop : (Client.reconnectLoop ((d, w) :: rest) s).1
            = (Client.reconnectDelay s).2 := by
          simp only [Client.reconnectLoop, hchf, hch1, Bool.false_eq_true, if_false, hcon]
        have hn : lockedUnder Mutex.client Mutex.backoff []
            (Locks.Connect d (Client.reconnectDelay s).2) = false := by
          cases hl : lockedUnder Mutex.client Mutex.backoff []
              (Locks.Connect d (Client.reconnectDelay s).2) with
          | false => rfl
          | true =>
            have := (c1.mp hl).1
            rw [hc] at this
            exact absurd this (by decide)
        rw [hloop, hd1, hn, hcon]
        simp [lockedUnder, heldAfter]
      · have hcf : (Client.reconnectDelay s).2.closed = false := by simpa using hc
        cases d with
        | some e =>
          have hcon := Client.Connect_failed (Client.reconnectDelay s).2 e w hcf
          have hn : lockedUnder Mutex.client Mutex.backoff []
              (Locks.Connect (some e) (Client.reconnectDelay s).2) = false := by
            cases hl : lockedUnder Mutex.client Mutex.backoff []
                (Locks.Connect (some e) (Client.reconnectDelay s).2) with
            | false => rfl
            | true => exact absurd (c1.mp hl).2 (by simp)
          have hloop : Client.reconnectLoop ((some e, w) :: rest) s
              = Client.reconnectLoop rest (Client.Connect (some e) w
                  (Client.reconnectDelay s).2).2 := by
            simp only [Client.reconnectLoop, hchf, hch1, Bool.false_eq_true, if_false, hcon]
          obtain ⟨i1, i2, i3⟩ :=
            ih (Client.Connect (some e) w (Client.reconnectDelay s).2).2
          have hd2 : (Client.Connect (some e) w (Client.reconnectDelay s).2).2.dialed
              = s.dialed := by
            rw [hcon]
            rfl
          rw [hloop, hn, Bool.false_or]
          have hfst : (Client.Connect (some e) w (Client.reconnectDelay s).2).1 = some e := by
            rw [hcon]
          simp only [hfst]
          rw [hd2] at i1
          exact ⟨i1, i2, i3⟩
        | none =>
          have hcon := Client.Connect_dialled (Client.reconnectDelay s).2 w hcf
          have hn : lockedUnder Mutex.client Mutex.backoff []
              (Locks.Connect none (Client.reconnectDelay s).2) = true :=
            c1.mpr ⟨hcf, rfl⟩
          have hfst : (Client.Connect none w (Client.reconnectDelay s).2).1 = none := by
            rw [hcon]
          have hloop : (Client.reconnectLoop ((none, w) :: rest) s).1
              = (Client.Connect none w (Client.reconnectDelay s).2).2 := by
            simp only [Client.reconnectLoop, hchf, hch1, Bool.false_eq_true, if_false, hfst]
          have hd2 : (Client.Connect none w (Client.reconnectDelay s).2).2.dialed
              = s.dialed + 1 := by
            rw [hcon]
            rfl
          rw [hloop, hn, hd2]
          simp only [hfst]
          refine ⟨?_, rfl, rfl⟩
          simp


/-- C14, as the code has it: in one call on the client the mutex of the backoff state is
locked while `c.mu` is held exactly when the call is a `Connect` on a client that is not
closed and the dial succeeds (the call of `Reset`); a reconnection loop does so exactly
when it dials a transport, and its call of `NextDelay` is made with `c.mu` not held; the
receive loop never does. In no call and in neither loop is `c.mu` locked while the mutex of
the backoff state is held, and every call ends with both mutexes released. -/
theorem C14_lock_order (s : Sys) (op : Op) (reads : List ReadResult)
    (dials : List (GoError × GoError)) :
    (lockedUnder Mutex.client Mutex.backoff [] (Locks.ofOp s op) = true
      ↔ (s.closed = false ∧ ∃ w, op = Op.connect none w))
    ∧ lockedUnder Mutex.backoff Mutex.client [] (Locks.ofOp s op) = false
    ∧ heldAfter [] (Locks.ofOp s op) = []
    ∧ lockedUnder Mutex.client Mutex.backoff [] (Locks.readLoop reads s) = false
    ∧ lockedUnder Mutex.backoff Mutex.client [] (Locks.readLoop reads s) = false
    ∧ (lockedUnder Mutex.client Mutex.backoff [] (Locks.reconnectLoop dials s) = true
        ↔ s.dialed < (Client.reconnectLoop dials s).1.dialed)
    ∧ lockedUnder Mutex.backoff Mutex.client [] (Locks.reconnectLoop dials s) = false
    ∧ lockedUnder Mutex.client Mutex.backoff [] (Locks.ofOp s Op.reconnectDelay) = false
    ∧ Locks.ofOp s Op.reconnectDelay = Locks.NextDelay := by
  obtain ⟨a1, a2, a3⟩ := Locks.ofOp_order s op
  obtain ⟨b1, b2, _⟩ := Locks.reconnectLoop_order dials s
  exact ⟨a1, a2, a3,
    (Locks.readLoop_order reads s Mutex.client Mutex.backoff (by decide)).1,
    (Locks.readLoop_order reads s Mutex.backoff Mutex.client (by decide)).1,
    b1, b2, rfl, rfl⟩

/-- C14 fails as stated: on a new client a `Connect` whose dial succeeds locks `c.mu`,
then locks and unlocks the mutex of the backoff state in its call of `Reset`, and only
then unlocks `c.mu`. -/
theorem C14_counterexample :
    Locks.ofOp (NewClient "ws://host/agent" "key" "dev" "amd64") (Op.connect none none)
      = [LockEvent.lock Mutex.client, LockEvent.lock Mutex.backoff,
         LockEvent.unlock Mutex.backoff, LockEvent.unlock Mutex.client]
    ∧ lockedUnder Mutex.client Mutex.backoff []
        (Locks.ofOp (NewClient "ws://host/agent" "key" "dev" "amd64")
          (Op.connect none none)) = true := by
  constructor <;> decide

end NodePulse
